import Mathlib

/-!
Shallow embedding of the invoice-extraction and record-building logic of
this repository (zz_renombrador_anterior/genera_txt.py together with its
duplicate test_extraccion.py, analizar_directorio.py, and
renombrar_facturas/renombrar_facturas.py), with theorems settling the
specification claims about that logic.

Python text is modelled by Lean String / List Char.  The regular
expressions used by the scripts are expressed as terms of a small
backtracking matcher (inductive type Re below) whose alternative order,
greediness, laziness and group numbering follow Python re semantics for
the constructs that occur in the scripts.  Lowercasing, uppercasing and
word characters are modelled over ASCII plus the accented Spanish letters
that occur in the scripts' patterns (Python applies full Unicode rules;
the difference is irrelevant to the texts these patterns are meant for).
Reading pages from a PDF and the OCR fallback (the TextSource collaborator
of the specification) are outside the model: the extraction functions take
the already-acquired page text.  The current date, which Python obtains
from datetime.now(), is passed explicitly as a value of the Hoy structure.
-/

namespace Renombrador

/-- Model of Python str.lower restricted to ASCII plus the accented
letters appearing in the scripts. -/
def pyLower (c : Char) : Char :=
  if 'A' ≤ c ∧ c ≤ 'Z' then Char.ofNat (c.toNat + 32)
  else if c = 'Á' then 'á' else if c = 'É' then 'é' else if c = 'Í' then 'í'
  else if c = 'Ó' then 'ó' else if c = 'Ú' then 'ú' else if c = 'Ñ' then 'ñ'
  else c

/-- Model of Python str.upper restricted to ASCII plus the accented
letters appearing in the scripts. -/
def pyUpper (c : Char) : Char :=
  if 'a' ≤ c ∧ c ≤ 'z' then Char.ofNat (c.toNat - 32)
  else if c = 'á' then 'Á' else if c = 'é' then 'É' else if c = 'í' then 'Í'
  else if c = 'ó' then 'Ó' else if c = 'ú' then 'Ú' else if c = 'ñ' then 'Ñ'
  else c

def pyLowerStr (s : String) : String := ⟨s.data.map pyLower⟩

def pyUpperStr (s : String) : String := ⟨s.data.map pyUpper⟩

/-- Word characters for the \b assertion: [A-Za-z0-9_] plus the accented
letters appearing in the scripts' texts. -/
def isWordChar (c : Char) : Bool :=
  c.isAlphanum || c = '_' ||
  c = 'á' || c = 'é' || c = 'í' || c = 'ó' || c = 'ú' || c = 'ñ' ||
  c = 'Á' || c = 'É' || c = 'Í' || c = 'Ó' || c = 'Ú' || c = 'Ñ'

/-- Whitespace for \s (the ASCII whitespace characters Python includes). -/
def isSpaceChar (c : Char) : Bool :=
  c = ' ' || c = '\t' || c = '\n' || c = '\r' || c = '\x0b' || c = '\x0c'

/-- Decimal digit character for a digit value below 10. -/
def digitChar (d : Nat) : Char := Char.ofNat (48 + d)

/-- Decimal digits with explicit fuel; the recursion depth is bounded by
the number itself, and the fuel keeps the recursion structural so that
the function computes by kernel reduction. -/
def natDigitsGo : Nat → Nat → List Char
  | 0, n => [digitChar n]
  | f + 1, n => if n < 10 then [digitChar n] else natDigitsGo f (n / 10) ++ [digitChar (n % 10)]

/-- Decimal digits of a natural number, most significant first;
this is how Python str prints an int. -/
def natDigits (n : Nat) : List Char := natDigitsGo n n

/-- Model of Python str applied to a nonnegative int. -/
def natToStr (n : Nat) : String := ⟨natDigits n⟩

/-- Numeric value of a digit string; this is how Python int parses it. -/
def digitsVal (l : List Char) : Nat :=
  l.foldl (fun a c => a * 10 + (c.toNat - 48)) 0

/-- Model of Python str.zfill on an unsigned digit string: pad with '0'
on the left up to width w. -/
def zfillL (w : Nat) (l : List Char) : List Char :=
  List.replicate (w - l.length) '0' ++ l

def zfill (w : Nat) (s : String) : String := ⟨zfillL w s.data⟩

/-- Model of Python str.isdigit for the ASCII digit strings this code
handles: nonempty and all digits. -/
def pyIsDigit (s : String) : Bool := !s.data.isEmpty && s.data.all Char.isDigit

/-- limpiar_numero of genera_txt.py / test_extraccion.py:
str(int(num_str)) if num_str.isdigit() else num_str. -/
def limpiarNumero (s : String) : String :=
  if pyIsDigit s then natToStr (digitsVal s.data) else s

/-- limpiar_numero of renombrar_facturas.py: str(int(num_str)), with the
original string returned when int() raises.  For the digit-only captures
it is applied to, int() succeeds exactly when the string is a nonempty
digit run. -/
def limpiarNumeroR (s : String) : String :=
  if pyIsDigit s then natToStr (digitsVal s.data) else s

/-- Model of the Python substring test (needle in hay). -/
def listPrefixOf : List Char → List Char → Bool
  | [], _ => true
  | _ :: _, [] => false
  | a :: as, b :: bs => a == b && listPrefixOf as bs

/-- Model of the Python substring test (needle in hay). -/
def containsSub (n : List Char) : List Char → Bool
  | [] => n.isEmpty
  | c :: rest => listPrefixOf n (c :: rest) || containsSub n rest

def strIn (needle hay : String) : Bool := containsSub needle.data hay.data

/-- The current date, as Python would obtain it from datetime.now(). -/
structure Hoy where
  dia : Nat
  mes : Nat
  anyo : Nat
deriving DecidableEq

/-- Model of datetime.now().strftime("%d/%m/%Y"). -/
def fmtFechaHoy (h : Hoy) : String :=
  ⟨zfillL 2 (natDigits h.dia) ++ '/' :: zfillL 2 (natDigits h.mes) ++ '/' :: zfillL 4 (natDigits h.anyo)⟩

/-- Model of the f-string f"{ahora.month:02d}{ahora.year}". -/
def fmtPeriodoHoy (h : Hoy) : String :=
  ⟨zfillL 2 (natDigits h.mes) ++ natDigits h.anyo⟩

/-! ## A small backtracking regex matcher

Only the constructs used by the scripts' patterns are represented.  The
matcher enumerates the candidate matches at a position in exactly the
order a backtracking engine such as Python re explores them, so taking
the head of the enumeration at the leftmost position with a match gives
the same match, with the same group spans, as re.search. -/

/-- Character classes occurring in the scripts' patterns. -/
inductive CC where
  | digit                -- \d (ASCII)
  | space                -- \s
  | bc                   -- [BC] under re.IGNORECASE
  | one (c : Char)       -- a single literal character without case variants
  | anyNoNl              -- . without re.DOTALL
  | anyc                 -- . with re.DOTALL
  | dashes               -- [-–]
  | wordc                -- \w
  | digdotcomma          -- [\d.,]
deriving DecidableEq

def CC.eval : CC → Char → Bool
  | .digit, c => c.isDigit
  | .space, c => isSpaceChar c
  | .bc, c => c = 'B' || c = 'C' || c = 'b' || c = 'c'
  | .one d, c => c = d
  | .anyNoNl, c => c ≠ '\n'
  | .anyc, _ => true
  | .dashes, c => c = '-' || c = '–'
  | .wordc, c => isWordChar c
  | .digdotcomma, c => c.isDigit || c = '.' || c = ','

/-- Regex abstract syntax for the constructs used by the scripts. -/
inductive Re where
  | lit (s : List Char) (ci : Bool)                      -- literal, optionally case-insensitive
  | cls (k : CC)                                         -- single character class
  | many (k : CC) (lo : Nat) (hi : Option Nat) (lz : Bool)  -- k{lo,hi}, lazy when lz
  | seq (a b : Re)
  | alt (a b : Re)
  | opt (a : Re)                                         -- a? (greedy)
  | star (a : Re)                                        -- (?:a)* (greedy)
  | grp (n : Nat) (a : Re)                               -- capturing group number n
  | wb                                                   -- \b
  | bos                                                  -- ^ (no re.MULTILINE)
  | eos                                                  -- $

/-- Concatenation of a pattern list. -/
def cat (rs : List Re) : Re := rs.foldr Re.seq (Re.lit [] false)

/-- Group spans recorded during a match: (group number, start, stop). -/
abbrev Caps := List (Nat × Nat × Nat)

/-- Does the literal s (case-insensitively when ci) occur in t at i? -/
def litMatch (t : List Char) (i : Nat) (s : List Char) (ci : Bool) : Bool :=
  match s with
  | [] => true
  | c :: rest =>
      match t.get? i with
      | some d => (if ci then pyLower d == pyLower c else d == c) && litMatch t (i + 1) rest ci
      | none => false

/-- Length of the maximal prefix run of characters in class k. -/
def ccRun (k : CC) : List Char → Nat
  | [] => 0
  | c :: r => if k.eval c then ccRun k r + 1 else 0

def runLen (k : CC) (t : List Char) (i : Nat) : Nat := ccRun k (t.drop i)

/-- Candidate repetition counts for k{lo,hi} given a maximal run of n
characters, greedy (descending) or lazy (ascending). -/
def manyKs (lo : Nat) (hi : Option Nat) (lz : Bool) (n : Nat) : List Nat :=
  let top := match hi with | none => n | some h => min n h
  if lo > top then []
  else
    let ks := (List.range (top + 1 - lo)).map (· + lo)
    if lz then ks else ks.reverse

def wordAt (t : List Char) (i : Nat) : Bool :=
  match t.get? i with
  | some c => isWordChar c
  | none => false

def wordBoundary (t : List Char) (i : Nat) : Bool :=
  if i = 0 then wordAt t 0 else wordAt t (i - 1) != wordAt t i

/-- Iteration of a greedy star given the matcher m of its body; longer
iteration sequences are preferred, matching a backtracking engine.  The
fuel bounds the number of iterations; the body never matches empty. -/
def starRun (m : Nat → Caps → List (Nat × Caps)) : Nat → Nat → Caps → List (Nat × Caps)
  | 0, i, g => [(i, g)]
  | f + 1, i, g =>
      ((m i g).flatMap (fun p => if i < p.1 then starRun m f p.1 p.2 else [])) ++ [(i, g)]

/-- All candidate ways re can match in t starting at i, as (end position,
groups) pairs, in the order a backtracking engine prefers them. -/
def Re.matchesAt (t : List Char) : Re → Nat → Caps → List (Nat × Caps)
  | .lit s ci, i, g => if litMatch t i s ci then [(i + s.length, g)] else []
  | .cls k, i, g =>
      match t.get? i with
      | some c => if k.eval c then [(i + 1, g)] else []
      | none => []
  | .many k lo hi lz, i, g => (manyKs lo hi lz (runLen k t i)).map (fun j => (i + j, g))
  | .seq a b, i, g => (Re.matchesAt t a i g).flatMap (fun p => Re.matchesAt t b p.1 p.2)
  | .alt a b, i, g => Re.matchesAt t a i g ++ Re.matchesAt t b i g
  | .opt a, i, g => Re.matchesAt t a i g ++ [(i, g)]
  | .star a, i, g => starRun (fun j h => Re.matchesAt t a j h) (t.length + 1) i g
  | .grp n a, i, g => (Re.matchesAt t a i g).map (fun p => (p.1, (n, i, p.1) :: p.2))
  | .wb, i, g => if wordBoundary t i then [(i, g)] else []
  | .bos, i, g => if i = 0 then [(i, g)] else []
  | .eos, i, g => if i = t.length then [(i, g)] else []

/-- Model of re.search restricted to start positions at or after i0:
the leftmost position with a match wins, and at that position the
backtracking-preferred match is taken. -/
def searchFrom (re : Re) (t : List Char) (i0 : Nat) : Option (Nat × Nat × Caps) :=
  (List.range (t.length + 1 - i0)).findSome? (fun d =>
    ((re.matchesAt t (i0 + d) []).head?).map (fun p => (i0 + d, p.1, p.2)))

/-- Model of re.search. -/
def reSearch (re : Re) (t : List Char) : Option (Nat × Nat × Caps) :=
  searchFrom re t 0

/-- Model of re.finditer: repeated non-overlapping leftmost search, each
next search starting at the previous match end. -/
def finditerGo (re : Re) (t : List Char) : Nat → Nat → List (Nat × Nat × Caps)
  | 0, _ => []
  | f + 1, i =>
      match searchFrom re t i with
      | none => []
      | some m => m :: finditerGo re t f (max m.2.1 (m.1 + 1))

def reFinditer (re : Re) (t : List Char) : List (Nat × Nat × Caps) :=
  finditerGo re t (t.length + 1) 0

def sliceTxt (t : List Char) (s e : Nat) : List Char := (t.drop s).take (e - s)

/-- The text captured by group n, when that group participated in the
match (Python m.group(n)). -/
def capGet (t : List Char) (g : Caps) (n : Nat) : Option (List Char) :=
  (g.find? (fun c => c.1 == n)).map (fun c => sliceTxt t c.2.1 c.2.2)

/-- Captured group n as a string, for matches where the group always
participates. -/
def capStr (t : List Char) (g : Caps) (n : Nat) : String :=
  ⟨(capGet t g n).getD []⟩

/-- Model of re.findall for a pattern without capturing groups: the list
of whole-match substrings. -/
def reFindallWhole (re : Re) (t : List Char) : List (List Char) :=
  (reFinditer re t).map (fun m => sliceTxt t m.1 m.2.1)

/-- Model of re.findall for a pattern with exactly one capturing group:
the list of group-1 captures. -/
def reFindallGrp1 (re : Re) (t : List Char) : List (List Char) :=
  (reFinditer re t).map (fun m => (capGet t m.2.2 1).getD [])

/-! ## The patterns of genera_txt.py / test_extraccion.py -/

/-- Pattern \bCUIT:?\s*(\d{2}-\d{8}-\d)\b, re.I (genera_txt.py line 80). -/
def patCuit1 : Re := cat [.wb, .lit "CUIT".data true, .opt (.cls (.one ':')),
  .many .space 0 none false,
  .grp 1 (cat [.many .digit 2 (some 2) false, .cls (.one '-'),
    .many .digit 8 (some 8) false, .cls (.one '-'), .cls .digit]), .wb]

/-- Pattern \bCUIT:?\s*(\d{11})\b, re.I (genera_txt.py line 81). -/
def patCuit2 : Re := cat [.wb, .lit "CUIT".data true, .opt (.cls (.one ':')),
  .many .space 0 none false, .grp 1 (.many .digit 11 (some 11) false), .wb]

/-- Pattern \b(\d{2}-\d{8}-\d)\b (genera_txt.py line 82). -/
def patCuit3 : Re := cat [.wb,
  .grp 1 (cat [.many .digit 2 (some 2) false, .cls (.one '-'),
    .many .digit 8 (some 8) false, .cls (.one '-'), .cls .digit]), .wb]

/-- Pattern \b(\d{11})\b (genera_txt.py line 83). -/
def patCuit4 : Re := cat [.wb, .grp 1 (.many .digit 11 (some 11) false), .wb]

/-- Pattern \bFACTURA\b, re.I (genera_txt.py line 101). -/
def patFacturaWord : Re := cat [.wb, .lit "FACTURA".data true, .wb]

/-- Pattern \bRECIBO\b, re.I (genera_txt.py line 103). -/
def patReciboWord : Re := cat [.wb, .lit "RECIBO".data true, .wb]

/-- Pattern ([BC])\s+FACTURA, re.I (genera_txt.py line 108). -/
def patL1 : Re := cat [.grp 1 (.cls .bc), .many .space 1 none false, .lit "FACTURA".data true]

/-- Pattern FACTURA\s+([BC]), re.I (genera_txt.py line 109). -/
def patL2 : Re := cat [.lit "FACTURA".data true, .many .space 1 none false, .grp 1 (.cls .bc)]

/-- Pattern ([BC])\s+COD, re.I (genera_txt.py line 110). -/
def patL3 : Re := cat [.grp 1 (.cls .bc), .many .space 1 none false, .lit "COD".data true]

/-- Pattern COD\.?\s*(\d+), re.I (genera_txt.py line 111). -/
def patL4 : Re := cat [.lit "COD".data true, .opt (.cls (.one '.')),
  .many .space 0 none false, .grp 1 (.many .digit 1 none false)]

/-- Pattern (^|\n)\s*([BC])\s*(\n|$), re.I (genera_txt.py line 112 and
renombrar_facturas.py line 66). -/
def patLoneLetra : Re := cat [.grp 1 (.alt .bos (.cls (.one '\n'))),
  .many .space 0 none false, .grp 2 (.cls .bc), .many .space 0 none false,
  .grp 3 (.alt (.cls (.one '\n')) .eos)]

/-- Pattern \b([BC])\d{2,4}\b, re.I (genera_txt.py line 113 and
renombrar_facturas.py line 71). -/
def patL6 : Re := cat [.wb, .grp 1 (.cls .bc), .many .digit 2 (some 4) false, .wb]

/-- Pattern Punto\s*de\s*Venta:?\s*0*(\d+)\s+Comp\.?\s*Nro:?\s*0*(\d+),
re.I (genera_txt.py line 156). -/
def patPv1 : Re := cat [.lit "Punto".data true, .many .space 0 none false,
  .lit "de".data true, .many .space 0 none false, .lit "Venta".data true,
  .opt (.cls (.one ':')), .many .space 0 none false,
  .many (.one '0') 0 none false, .grp 1 (.many .digit 1 none false),
  .many .space 1 none false, .lit "Comp".data true, .opt (.cls (.one '.')),
  .many .space 0 none false, .lit "Nro".data true, .opt (.cls (.one ':')),
  .many .space 0 none false, .many (.one '0') 0 none false,
  .grp 2 (.many .digit 1 none false)]

/-- Pattern Punto\s*de\s*Venta:?\s*0*(\d+).*?Comp\.?\s*Nro:?\s*0*(\d+),
re.I (genera_txt.py line 157). -/
def patPv2 : Re := cat [.lit "Punto".data true, .many .space 0 none false,
  .lit "de".data true, .many .space 0 none false, .lit "Venta".data true,
  .opt (.cls (.one ':')), .many .space 0 none false,
  .many (.one '0') 0 none false, .grp 1 (.many .digit 1 none false),
  .many .anyNoNl 0 none true, .lit "Comp".data true, .opt (.cls (.one '.')),
  .many .space 0 none false, .lit "Nro".data true, .opt (.cls (.one ':')),
  .many .space 0 none false, .many (.one '0') 0 none false,
  .grp 2 (.many .digit 1 none false)]

/-- Pattern \b0*(\d+)\s*[-–]\s*0*(\d{1,9})\b, re.I (genera_txt.py line 160). -/
def patPv3 : Re := cat [.wb, .many (.one '0') 0 none false,
  .grp 1 (.many .digit 1 none false), .many .space 0 none false, .cls .dashes,
  .many .space 0 none false, .many (.one '0') 0 none false,
  .grp 2 (.many .digit 1 (some 9) false), .wb]

/-- Pattern Nro\s+0*(\d+)\s*-\s*0*(\d+), re.I (genera_txt.py line 161). -/
def patPv4 : Re := cat [.lit "Nro".data true, .many .space 1 none false,
  .many (.one '0') 0 none false, .grp 1 (.many .digit 1 none false),
  .many .space 0 none false, .cls (.one '-'), .many .space 0 none false,
  .many (.one '0') 0 none false, .grp 2 (.many .digit 1 none false)]

/-- Pattern (FAC\-)?([BC])\s*-\s*0*(\d+)\s*-\s*0*(\d+), re.I
(genera_txt.py line 162 and renombrar_facturas.py line 108). -/
def patPv5 : Re := cat [.opt (.grp 1 (.lit "FAC-".data true)), .grp 2 (.cls .bc),
  .many .space 0 none false, .cls (.one '-'), .many .space 0 none false,
  .many (.one '0') 0 none false, .grp 3 (.many .digit 1 none false),
  .many .space 0 none false, .cls (.one '-'), .many .space 0 none false,
  .many (.one '0') 0 none false, .grp 4 (.many .digit 1 none false)]

/-- Pattern (FAC\-)?([BC])\-0*(\d+)\-0*(\d+), re.I (genera_txt.py line
163, and renombrar_facturas.py lines 114 and 139). -/
def patPv6 : Re := cat [.opt (.grp 1 (.lit "FAC-".data true)), .grp 2 (.cls .bc),
  .cls (.one '-'), .many (.one '0') 0 none false,
  .grp 3 (.many .digit 1 none false), .cls (.one '-'),
  .many (.one '0') 0 none false, .grp 4 (.many .digit 1 none false)]

/-- Pattern Fecha\s+de\s+Emisión:?\s*(\d{2}/\d{2}/\d{4}), re.I
(genera_txt.py line 181). -/
def patFechaLabel : Re := cat [.lit "Fecha".data true, .many .space 1 none false,
  .lit "de".data true, .many .space 1 none false, .lit "Emisión".data true,
  .opt (.cls (.one ':')), .many .space 0 none false,
  .grp 1 (cat [.many .digit 2 (some 2) false, .cls (.one '/'),
    .many .digit 2 (some 2) false, .cls (.one '/'), .many .digit 4 (some 4) false])]

/-- Pattern \d{2}/\d{2}/\d{4} (genera_txt.py line 186). -/
def patFechaSlash : Re := cat [.many .digit 2 (some 2) false, .cls (.one '/'),
  .many .digit 2 (some 2) false, .cls (.one '/'), .many .digit 4 (some 4) false]

/-- Pattern \d{2}-\d{2}-\d{4} (genera_txt.py line 195). -/
def patFechaDash : Re := cat [.many .digit 2 (some 2) false, .cls (.one '-'),
  .many .digit 2 (some 2) false, .cls (.one '-'), .many .digit 4 (some 4) false]

/-- Pattern CAE\s*N°:?\s*(\d{14}), re.I (genera_txt.py line 206). -/
def patCae1 : Re := cat [.lit "CAE".data true, .many .space 0 none false,
  .lit "N°".data true, .opt (.cls (.one ':')), .many .space 0 none false,
  .grp 1 (.many .digit 14 (some 14) false)]

/-- Pattern Pág\.\s*1/1\s+(\d{14}), no flags (genera_txt.py line 211). -/
def patCae2 : Re := cat [.lit "Pág".data false, .cls (.one '.'),
  .many .space 0 none false, .lit "1/1".data false, .many .space 1 none false,
  .grp 1 (.many .digit 14 (some 14) false)]

/-- Pattern CAE.*?(\d{14}), re.DOTALL and re.I (genera_txt.py line 216). -/
def patCae3 : Re := cat [.lit "CAE".data true, .many .anyc 0 none true,
  .grp 1 (.many .digit 14 (some 14) false)]

/-- Pattern CAI\s*N°:?\s*(\d{14}), re.I (genera_txt.py line 221). -/
def patCai : Re := cat [.lit "CAI".data true, .many .space 0 none false,
  .lit "N°".data true, .opt (.cls (.one ':')), .many .space 0 none false,
  .grp 1 (.many .digit 14 (some 14) false)]

/-- Pattern \b(\d{14})\b (genera_txt.py line 226). -/
def patCae5 : Re := cat [.wb, .grp 1 (.many .digit 14 (some 14) false), .wb]

/-- The shape \s*\$?\s*([\d.,]+) shared by the labelled amount patterns. -/
def impTail : List Re := [.opt (.cls (.one ':')), .many .space 0 none false,
  .opt (.cls (.one '$')), .many .space 0 none false,
  .grp 1 (.many .digdotcomma 1 none false)]

/-- Pattern Importe Total:?\s*\$?\s*([\d.,]+), re.I (genera_txt.py line 237). -/
def patImp1 : Re := cat (.lit "Importe Total".data true :: impTail)

/-- Pattern TOTAL:?\s*\$?\s*([\d.,]+), re.I (genera_txt.py line 238). -/
def patImp2 : Re := cat (.lit "TOTAL".data true :: impTail)

/-- Pattern Total:?\s*\$?\s*([\d.,]+), re.I (genera_txt.py line 239). -/
def patImp3 : Re := cat (.lit "Total".data true :: impTail)

/-- Pattern IMPORTE TOTAL:?\s*\$?\s*([\d.,]+), re.I (genera_txt.py line 240). -/
def patImp4 : Re := cat (.lit "IMPORTE TOTAL".data true :: impTail)

/-- Pattern (\d{3,6}(?:\.\d{3})*(?:,\d{2})) (genera_txt.py line 252). -/
def patImp5 : Re := .grp 1 (cat [.many .digit 3 (some 6) false,
  .star (cat [.cls (.one '.'), .many .digit 3 (some 3) false]),
  .cls (.one ','), .many .digit 2 (some 2) false])

/-- Pattern Período\s*Facturado\s*Desde:?\s*\d{2}/(\d{2})/(\d{4}), re.I
(genera_txt.py line 264). -/
def patPeriodoDesde : Re := cat [.lit "Período".data true, .many .space 0 none false,
  .lit "Facturado".data true, .many .space 0 none false, .lit "Desde".data true,
  .opt (.cls (.one ':')), .many .space 0 none false,
  .many .digit 2 (some 2) false, .cls (.one '/'),
  .grp 1 (.many .digit 2 (some 2) false), .cls (.one '/'),
  .grp 2 (.many .digit 4 (some 4) false)]

/-- Pattern mes\s+de\s+(\w+)\s+de\s+(\d{4}), re.I (genera_txt.py line 269). -/
def patMesDe : Re := cat [.lit "mes".data true, .many .space 1 none false,
  .lit "de".data true, .many .space 1 none false,
  .grp 1 (.many .wordc 1 none false), .many .space 1 none false,
  .lit "de".data true, .many .space 1 none false,
  .grp 2 (.many .digit 4 (some 4) false)]

/-- Pattern \bkm\b, no flags, searched over the lowered text
(genera_txt.py line 291). -/
def patKm : Re := cat [.wb, .lit "km".data false, .wb]

/-! ## The patterns specific to renombrar_facturas.py -/

/-- Pattern \b(\d{2}-?\d{8}-?\d{1})\b, no flags (renombrar_facturas.py
line 47). -/
def patCuitR : Re := cat [.wb,
  .grp 1 (cat [.many .digit 2 (some 2) false, .opt (.cls (.one '-')),
    .many .digit 8 (some 8) false, .opt (.cls (.one '-')),
    .many .digit 1 (some 1) false]), .wb]

/-- Pattern (FACTURA|RECIBO), re.IGNORECASE (renombrar_facturas.py line 54). -/
def patTipoR : Re := .grp 1 (.alt (.lit "FACTURA".data true) (.lit "RECIBO".data true))

/-- Pattern ([BC])\s*COD\.?\s*\d*, re.IGNORECASE (renombrar_facturas.py
line 61). -/
def patLRa : Re := cat [.grp 1 (.cls .bc), .many .space 0 none false,
  .lit "COD".data true, .opt (.cls (.one '.')), .many .space 0 none false,
  .many .digit 0 none false]

/-- Pattern Punto\s*de\s*Venta:\s*.*Comp\.?\s*Nro:\s*0*(\d+)\s+0*(\d+),
re.DOTALL without re.IGNORECASE (renombrar_facturas.py line 93). -/
def patPvRa : Re := cat [.lit "Punto".data false, .many .space 0 none false,
  .lit "de".data false, .many .space 0 none false, .lit "Venta:".data false,
  .many .space 0 none false, .many .anyc 0 none false, .lit "Comp".data false,
  .opt (.cls (.one '.')), .many .space 0 none false, .lit "Nro:".data false,
  .many .space 0 none false, .many (.one '0') 0 none false,
  .grp 1 (.many .digit 1 none false), .many .space 1 none false,
  .many (.one '0') 0 none false, .grp 2 (.many .digit 1 none false)]

/-- Pattern Nro\s+0*(\d+)-0*(\d+), no flags (renombrar_facturas.py line 98). -/
def patPvRb : Re := cat [.lit "Nro".data false, .many .space 1 none false,
  .many (.one '0') 0 none false, .grp 1 (.many .digit 1 none false),
  .cls (.one '-'), .many (.one '0') 0 none false,
  .grp 2 (.many .digit 1 none false)]

/-- Pattern \b0*(\d+)-0*(\d+)\b, no flags (renombrar_facturas.py line 103). -/
def patPvRc : Re := cat [.wb, .many (.one '0') 0 none false,
  .grp 1 (.many .digit 1 none false), .cls (.one '-'),
  .many (.one '0') 0 none false, .grp 2 (.many .digit 1 none false), .wb]

/-! ## Extraction functions of genera_txt.py / test_extraccion.py -/

/-- One acceptance step of extraer_cuits: the stripped capture is kept
when new and exactly 11 characters long (genera_txt.py lines 89-91). -/
def agregarCuit (cuits : List String) (cap : List Char) : List String :=
  let cuit : String := ⟨cap.filter (fun c => c != '-')⟩
  if !cuits.contains cuit && cuit.length == 11 then cuits ++ [cuit] else cuits

/-- extraer_cuits of genera_txt.py lines 75-93: run the four patterns in
order, collecting every new 11-digit match. -/
def extraerCuits (texto : String) : List String :=
  let t := texto.data
  [patCuit1, patCuit2, patCuit3, patCuit4].foldl
    (fun cuits pat =>
      (reFinditer pat t).foldl (fun cs m => agregarCuit cs ((capGet t m.2.2 1).getD [])) cuits)
    []

/-- Letter lookup applied to the COD-code capture (genera_txt.py lines
125-134): 011 and 006 give C, 008 and 009 give B, anything else nothing. -/
def codALetra (codigo : String) : Option String :=
  if codigo = "011" then some "C"
  else if codigo = "006" then some "C"
  else if codigo = "008" then some "B"
  else if codigo = "009" then some "B"
  else none

/-- The letter loop of extraer_tipo_letra (genera_txt.py lines 107-135).
A match of the lone-letter pattern binds group 1 to the (^|\n) span, never
to a letter, and its pattern string differs from the COD pattern, so that
iteration neither assigns the letter nor breaks; the loop proceeds to the
compact [BC]NNN pattern.  A match of the COD pattern breaks the loop even
when the code is not one of the four known ones. -/
def letraLoop (t : List Char) : Option String :=
  match reSearch patL1 t with
  | some m => some (pyUpperStr (capStr t m.2.2 1))
  | none =>
    match reSearch patL2 t with
    | some m => some (pyUpperStr (capStr t m.2.2 1))
    | none =>
      match reSearch patL3 t with
      | some m => some (pyUpperStr (capStr t m.2.2 1))
      | none =>
        match reSearch patL4 t with
        | some m => codALetra (capStr t m.2.2 1)
        | none =>
          match reSearch patL6 t with
          | some m => some (pyUpperStr (capStr t m.2.2 1))
          | none => none

/-- extraer_tipo_letra of genera_txt.py lines 96-149: document type from
whole-word FACTURA then RECIBO, letter from the pattern loop, then the
in-function substring fallback (C tried before B). -/
def extraerTipoLetra (texto : String) : Option String × Option String :=
  let t := texto.data
  let tipo : Option String :=
    if (reSearch patFacturaWord t).isSome then some "FACTURA"
    else if (reSearch patReciboWord t).isSome then some "RECIBO"
    else none
  let letra := letraLoop t
  let letra : Option String :=
    if tipo.isSome ∧ letra.isNone then
      if tipo = some "FACTURA" ∧ (strIn "C FACTURA" texto || strIn "FACTURA C" texto) then
        some "C"
      else if tipo = some "FACTURA" ∧ (strIn "B FACTURA" texto || strIn "FACTURA B" texto) then
        some "B"
      else if tipo = some "RECIBO" ∧ (strIn "C RECIBO" texto || strIn "RECIBO C" texto) then
        some "C"
      else if tipo = some "RECIBO" ∧ (strIn "B RECIBO" texto || strIn "RECIBO B" texto) then
        some "B"
      else letra
    else letra
  (tipo, letra)

/-- extraer_pv_nro of genera_txt.py lines 152-175: six patterns in order;
the two patterns whose source text contains FAC select groups 3 and 4,
the others groups 1 and 2; captures go through limpiar_numero. -/
def extraerPvNro (texto : String) : Option String × Option String :=
  let t := texto.data
  match reSearch patPv1 t with
  | some m => (some (limpiarNumero (capStr t m.2.2 1)), some (limpiarNumero (capStr t m.2.2 2)))
  | none =>
  match reSearch patPv2 t with
  | some m => (some (limpiarNumero (capStr t m.2.2 1)), some (limpiarNumero (capStr t m.2.2 2)))
  | none =>
  match reSearch patPv3 t with
  | some m => (some (limpiarNumero (capStr t m.2.2 1)), some (limpiarNumero (capStr t m.2.2 2)))
  | none =>
  match reSearch patPv4 t with
  | some m => (some (limpiarNumero (capStr t m.2.2 1)), some (limpiarNumero (capStr t m.2.2 2)))
  | none =>
  match reSearch patPv5 t with
  | some m => (some (limpiarNumero (capStr t m.2.2 3)), some (limpiarNumero (capStr t m.2.2 4)))
  | none =>
  match reSearch patPv6 t with
  | some m => (some (limpiarNumero (capStr t m.2.2 3)), some (limpiarNumero (capStr t m.2.2 4)))
  | none => (none, none)

/-- extraer_fecha of genera_txt.py lines 178-200. -/
def extraerFecha (texto : String) (hoy : Hoy) : String :=
  let t := texto.data
  match reSearch patFechaLabel t with
  | some m => capStr t m.2.2 1
  | none =>
    let fechas := reFindallWhole patFechaSlash t
    if fechas.length ≥ 4 then ⟨(fechas.get? 3).getD []⟩
    else if !fechas.isEmpty then ⟨(fechas.head?).getD []⟩
    else
      match (reFindallWhole patFechaDash t).head? with
      | some a => ⟨a.map (fun c => if c = '-' then '/' else c)⟩
      | none => fmtFechaHoy hoy

/-- extraer_cae of genera_txt.py lines 203-230. -/
def extraerCae (texto : String) : Option String × Option String :=
  let t := texto.data
  match reSearch patCae1 t with
  | some m => (some (capStr t m.2.2 1), some "E")
  | none =>
  match reSearch patCae2 t with
  | some m => (some (capStr t m.2.2 1), some "E")
  | none =>
  match reSearch patCae3 t with
  | some m => (some (capStr t m.2.2 1), some "E")
  | none =>
  match reSearch patCai t with
  | some m => (some (capStr t m.2.2 1), some "I")
  | none =>
  match reSearch patCae5 t with
  | some m => (some (capStr t m.2.2 1), some "E")
  | none => (none, none)

/-- Removal of the thousands and decimal separators:
.replace(".", "").replace(",", ""). -/
def quitarSeparadores (l : List Char) : List Char :=
  l.filter (fun c => c != '.' && c != ',')

/-- extraer_importe of genera_txt.py lines 233-258. -/
def extraerImporte (texto : String) : Option String :=
  let t := texto.data
  match reSearch patImp1 t with
  | some m => some ⟨quitarSeparadores ((capGet t m.2.2 1).getD [])⟩
  | none =>
  match reSearch patImp2 t with
  | some m => some ⟨quitarSeparadores ((capGet t m.2.2 1).getD [])⟩
  | none =>
  match reSearch patImp3 t with
  | some m => some ⟨quitarSeparadores ((capGet t m.2.2 1).getD [])⟩
  | none =>
  match reSearch patImp4 t with
  | some m => some ⟨quitarSeparadores ((capGet t m.2.2 1).getD [])⟩
  | none =>
    match (reFindallGrp1 patImp5 t).getLast? with
    | some u => some ⟨quitarSeparadores u⟩
    | none => none

/-- The Spanish month-name table of extraer_periodo (genera_txt.py lines
273-277). -/
def MESES : List (String × String) :=
  [("enero", "01"), ("febrero", "02"), ("marzo", "03"), ("abril", "04"),
   ("mayo", "05"), ("junio", "06"), ("julio", "07"), ("agosto", "08"),
   ("septiembre", "09"), ("octubre", "10"), ("noviembre", "11"), ("diciembre", "12")]

/-- Dictionary lookup in the month table. -/
def mesesLookup (s : String) : Option String :=
  (MESES.find? (fun p => p.1 == s)).map (fun p => p.2)

/-- extraer_periodo of genera_txt.py lines 261-283. -/
def extraerPeriodo (texto : String) (hoy : Hoy) : String :=
  let t := texto.data
  match reSearch patPeriodoDesde t with
  | some m => ⟨((capGet t m.2.2 1).getD []) ++ ((capGet t m.2.2 2).getD [])⟩
  | none =>
    match reSearch patMesDe t with
    | some m =>
      match mesesLookup (pyLowerStr (capStr t m.2.2 1)) with
      | some mm => ⟨mm.data ++ ((capGet t m.2.2 2).getD [])⟩
      | none => fmtPeriodoHoy hoy
    | none => fmtPeriodoHoy hoy

/-- The dependency/disability terms consulted for the S/N flag
(genera_txt.py lines 292 and 322). -/
def depTerms : List String := ["dependencia", "discapacidad", "discapac"]

/-- The professional-therapy terms (genera_txt.py lines 296-302). -/
def profTerms : List String :=
  ["psicología", "psicologia", "psicólogo", "psicologo",
   "musicoterapia", "musicoterapeuta",
   "kinesiología", "kinesiologia", "kinesiólogo", "kinesiologo",
   "fonoaudiología", "fonoaudiologia", "fonoaudiólogo", "fonoaudiologo",
   "psicopedagogía", "psicopedagogia", "psicopedagogo"]

/-- The school-integration-support terms (genera_txt.py lines 310-314). -/
def apoyoTerms : List String :=
  ["módulo de apoyo", "modulo de apoyo",
   "apoyo a la integración", "apoyo a la integracion",
   "maestra integradora", "maestro integrador"]

def hasAnyTerm (terms : List String) (hay : List Char) : Bool :=
  terms.any (fun s => containsSub s.data hay)

/-- map_actividad of genera_txt.py lines 286-323. -/
def mapActividad (texto : String) : String × String :=
  let tl := (pyLowerStr texto).data
  if containsSub "transporte".data tl || containsSub "traslado".data tl
      || (reSearch patKm tl).isSome then
    ("096", if hasAnyTerm depTerms tl then "S" else "N")
  else if hasAnyTerm profTerms tl then ("091", "N")
  else if containsSub "estimulación temprana".data tl
      || containsSub "estimulacion temprana".data tl then ("085", "N")
  else if hasAnyTerm apoyoTerms tl then ("089", "N")
  else if containsSub "honorarios profesionales".data tl
      || containsSub "sesiones".data tl || containsSub "terapia".data tl then
    ("090", "N")
  else
    ("090", if hasAnyTerm depTerms tl then "S" else "N")

/-- cantidad_por_actividad of genera_txt.py lines 326-333. -/
def cantidadPorActividad (cod : String) : String :=
  if cod = "096" then "001500"
  else if cod = "090" ∨ cod = "091" then "000004"
  else "000001"

/-- CODIGO_CBTE of genera_txt.py lines 50-55: the (type, letter) to
AFIP-code table; .get gives none off the four keys. -/
def CODIGO_CBTE (tipo letra : String) : Option String :=
  if tipo = "FACTURA" ∧ letra = "B" then some "03"
  else if tipo = "RECIBO" ∧ letra = "B" then some "04"
  else if tipo = "FACTURA" ∧ letra = "C" then some "05"
  else if tipo = "RECIBO" ∧ letra = "C" then some "06"
  else none

/-- Python truthiness of an optional string: None and the empty string
are falsy. -/
def pyTruthyOpt : Option String → Bool
  | none => false
  | some s => !s.data.isEmpty

/-- The extracted record of extraer_info_pdf (genera_txt.py lines
465-478); in the successful case every key is present. -/
structure Info where
  cuit_pre : String
  codigo_cbte : String
  pv : String
  nro : String
  fecha_cbte : String
  tipo_emision : String
  nro_cae : String
  importe : String
  periodo : String
  actividad : String
  cantidad : String
  dep : String
deriving DecidableEq

/-- The type/letter inference of extraer_info_pdf lines 412-420: when the
cascade left either component undetermined and the uppercased text
contains FACTURA, the type is set to FACTURA and the letter to C or B
according to which bare character occurs in the text. -/
def tipoLetraInferidos (texto : String) : Option String × Option String :=
  let (tipo, letra) := extraerTipoLetra texto
  if tipo.isNone ∨ letra.isNone then
    if strIn "FACTURA" (pyUpperStr texto) then
      ("FACTURA",
       if texto.data.contains 'C' then some "C"
       else if texto.data.contains 'B' then some "B"
       else letra)
    else (tipo, letra)
  else (tipo, letra)

/-- The comprobante code determined by extraer_info_pdf lines 410-429. -/
def codigoCbteDe (texto : String) : Option String :=
  match tipoLetraInferidos texto with
  | (some tipo, some letra) => CODIGO_CBTE tipo letra
  | _ => none

/-- extraer_info_pdf of genera_txt.py lines 358-480, modelled from the
point where the page text has been acquired (texto is texto_completo, the
two page texts joined by a newline; the PyPDF2/OCR acquisition of lines
363-398 is the external TextSource).  An empty Python dict return is
none; a successful return carries every key. -/
def extraerInfo (texto : String) (hoy : Hoy) : Option Info :=
  match (extraerCuits texto).head? with
  | none => none
  | some cuitEmisor =>
    match codigoCbteDe texto with
    | none => none
    | some codigoCbte =>
      let (pv?, nro?) := extraerPvNro texto
      if pyTruthyOpt pv? && pyTruthyOpt nro? then
        let (cae?, emision?) := extraerCae texto
        let (actividad, dep) := mapActividad texto
        some
          { cuit_pre := cuitEmisor
            codigo_cbte := codigoCbte
            pv := pv?.getD ""
            nro := nro?.getD ""
            fecha_cbte := extraerFecha texto hoy
            tipo_emision := emision?.getD "E"
            nro_cae := cae?.getD ""
            importe :=
              match extraerImporte texto with
              | some i => if i = "" then "0" else i
              | none => "0"
            periodo := extraerPeriodo texto hoy
            actividad := actividad
            cantidad := cantidadPorActividad actividad
            dep := dep }
      else none

/-! ## Functions of renombrar_facturas.py -/

/-- extraer_cuit of renombrar_facturas.py lines 46-50. -/
def extraerCuitR (texto : String) : Option String :=
  match reSearch patCuitR texto.data with
  | some m => some ⟨((capGet texto.data m.2.2 1).getD []).filter (fun c => c != '-')⟩
  | none => none

/-- extraer_tipo_y_letra of renombrar_facturas.py lines 52-75. -/
def extraerTipoYLetraR (texto : String) : Option String × Option String :=
  let t := texto.data
  match reSearch patTipoR t with
  | none => (none, none)
  | some tm =>
    let tipo := pyUpperStr (capStr t tm.2.2 1)
    match reSearch patLRa t with
    | some m => (some tipo, some (pyUpperStr (capStr t m.2.2 1)))
    | none =>
      match reSearch patLoneLetra t with
      | some m => (some tipo, some (pyUpperStr (capStr t m.2.2 2)))
      | none =>
        match reSearch patL6 t with
        | some m => (some tipo, some (pyUpperStr (capStr t m.2.2 1)))
        | none => (none, none)

/-- tipo_y_letra_a_codigo of renombrar_facturas.py lines 77-86: the map
is keyed by (letter, type) and yields the ints 3, 4, 5, 6; None when
either component is missing or the pair is off the table. -/
def tipoYLetraACodigo (tipo letra : Option String) : Option Nat :=
  match tipo, letra with
  | some t, some l =>
    if l = "B" ∧ t = "FACTURA" then some 3
    else if l = "B" ∧ t = "RECIBO" then some 4
    else if l = "C" ∧ t = "FACTURA" then some 5
    else if l = "C" ∧ t = "RECIBO" then some 6
    else none
  | _, _ => none

/-- extraer_pv_nro of renombrar_facturas.py lines 88-121 (plans A-E). -/
def extraerPvNroR (texto : String) : Option String × Option String :=
  let t := texto.data
  match reSearch patPvRa t with
  | some m => (some (limpiarNumeroR (capStr t m.2.2 1)), some (limpiarNumeroR (capStr t m.2.2 2)))
  | none =>
  match reSearch patPvRb t with
  | some m => (some (limpiarNumeroR (capStr t m.2.2 1)), some (limpiarNumeroR (capStr t m.2.2 2)))
  | none =>
  match reSearch patPvRc t with
  | some m => (some (limpiarNumeroR (capStr t m.2.2 1)), some (limpiarNumeroR (capStr t m.2.2 2)))
  | none =>
  match reSearch patPv5 t with
  | some m => (some (limpiarNumeroR (capStr t m.2.2 3)), some (limpiarNumeroR (capStr t m.2.2 4)))
  | none =>
  match reSearch patPv6 t with
  | some m => (some (limpiarNumeroR (capStr t m.2.2 3)), some (limpiarNumeroR (capStr t m.2.2 4)))
  | none => (none, none)

/-- extraer_datos_flexible of renombrar_facturas.py lines 123-148:
returns the target filename, or none when any component is missing. -/
def extraerDatosFlexible (texto : String) : Option String :=
  match extraerCuitR texto with
  | none => none
  | some cuit =>
    let (tipo, letra) := extraerTipoYLetraR texto
    let codigo := tipoYLetraACodigo tipo letra
    let (pv?, nro?) := extraerPvNroR texto
    let codigo : Option Nat :=
      if codigo.isNone ∧ letra.isNone then
        match reSearch patPv6 texto.data with
        | some m =>
          match tipo with
          | some t => tipoYLetraACodigo (some t) (some (pyUpperStr (capStr texto.data m.2.2 2)))
          | none => codigo
        | none => codigo
      else codigo
    match codigo, pv?, nro? with
    | some c, some pv, some nro =>
      if !pv.data.isEmpty && !nro.data.isEmpty then
        some (cuit ++ "_" ++ natToStr c ++ "_" ++ pv ++ "_" ++ nro ++ ".pdf")
      else none
    | _, _, _ => none

def errInconsistencia : String := "❌ Inconsistencia entre página 1 y 2"

def errSinDatos : String := "❌ No se pudo extraer información de ninguna página"

/-- extraer_desde_dos_paginas of renombrar_facturas.py lines 166-195,
modelled from the point where the two page texts are in hand (the PyPDF2
read and the OCR fallback of lines 167-178 are the external TextSource).
Returns (new name, error). -/
def extraerDesdeDosPaginas (texto1 texto2 : String) : Option String × Option String :=
  let datos1 := extraerDatosFlexible texto1
  let datos2 := extraerDatosFlexible texto2
  match datos1, datos2 with
  | some d1, some d2 => if d1 = d2 then (some d1, none) else (none, some errInconsistencia)
  | some d1, none => (some d1, none)
  | none, some d2 => (some d2, none)
  | none, none => (none, some errSinDatos)

/-! ## Record building (construir_linea of genera_txt.py lines 537-581) -/

/-- One row of the beneficiary spreadsheet, already matched to the
document (the matching is external to the core). -/
structure FilaExcel where
  cuil : String
  codigo_certificado : String
  vencimiento_certificado : String
  provincia : String
deriving DecidableEq

/-- The certificate-code adjustment of construir_linea lines 552-556:
truncate past 38 characters, else right-pad with '0' to 38. -/
def certAjustado (c : String) : String :=
  if c.length > 38 then ⟨c.data.take 38⟩
  else ⟨c.data ++ List.replicate (38 - c.length) '0'⟩

/-- The 19 fields of the submission line, in the order of construir_linea
lines 559-579.  The info record always carries all twelve keys, so the
key-presence check of lines 540-544 is satisfied. -/
def camposLinea (rnos : String) (fila : FilaExcel) (info : Info) : List String :=
  ["DS",
   rnos,
   fila.cuil,
   certAjustado fila.codigo_certificado,
   fila.vencimiento_certificado,
   info.periodo,
   info.cuit_pre,
   info.codigo_cbte,
   info.tipo_emision,
   info.fecha_cbte,
   info.nro_cae,
   zfill 5 info.pv,
   zfill 8 info.nro,
   zfill 14 info.importe,
   zfill 14 info.importe,
   info.actividad,
   info.cantidad,
   fila.provincia,
   info.dep]

/-- construir_linea of genera_txt.py lines 537-581: the pipe join of the
19 fields. -/
def construirLinea (rnos : String) (fila : FilaExcel) (info : Info) : String :=
  String.intercalate "|" (camposLinea rnos fila info)

/-! ## The diagnostic report check of analizar_directorio.py -/

/-- The critical fields of analizar_directorio.py line 54. -/
def camposCriticos : List String :=
  ["cuit_pre", "codigo_cbte", "pv", "nro", "fecha_cbte"]

/-- Value of a critical field in the extracted record. -/
def valorCampo (r : Info) : String → String
  | "cuit_pre" => r.cuit_pre
  | "codigo_cbte" => r.codigo_cbte
  | "pv" => r.pv
  | "nro" => r.nro
  | "fecha_cbte" => r.fecha_cbte
  | _ => ""

/-- The missing-critical-field list of analizar_directorio.py line 55:
a field is missing when its key is absent (which is every key for the
empty-dict result) or its value is falsy. -/
def faltantes (info : Option Info) : List String :=
  match info with
  | none => camposCriticos
  | some r => camposCriticos.filter (fun c => (valorCampo r c).data.isEmpty)

/-! ## Basic facts about decimal printing, parsing and padding -/

theorem char_eq_of_toNat_eq {c d : Char} (h : c.toNat = d.toNat) : c = d :=
  Char.ext (UInt32.ext h)

theorem isDigit_toNat {c : Char} (h : c.isDigit = true) :
    48 ≤ c.toNat ∧ c.toNat ≤ 57 := by
  simp [Char.isDigit] at h
  exact h

theorem digitChar_toNat_sub {c : Char} (h : c.isDigit = true) :
    digitChar (c.toNat - 48) = c := by
  have hb := isDigit_toNat h
  have : 48 + (c.toNat - 48) = c.toNat := by omega
  rw [digitChar, this, Char.ofNat_toNat]

theorem natDigitsGo_congr : ∀ n f g, n ≤ f → n ≤ g → natDigitsGo f n = natDigitsGo g n := by
  intro n
  induction n using Nat.strong_induction_on with
  | _ n ih =>
    intro f g hf hg
    by_cases h10 : n < 10
    · match f, g with
      | 0, 0 => rfl
      | 0, g + 1 => simp [natDigitsGo, if_pos h10]
      | f + 1, 0 => simp [natDigitsGo, if_pos h10]
      | f + 1, g + 1 => simp [natDigitsGo, if_pos h10]
    · match f, g with
      | 0, _ => omega
      | _ + 1, 0 => omega
      | f + 1, g + 1 =>
        simp only [natDigitsGo, if_neg h10]
        rw [ih (n / 10) (by omega) f g (by omega) (by omega)]

/-- The recursion equation of natDigits. -/
theorem natDigits_eq (n : Nat) :
    natDigits n = if n < 10 then [digitChar n]
      else natDigits (n / 10) ++ [digitChar (n % 10)] := by
  by_cases h10 : n < 10
  · rw [if_pos h10]
    match n, h10 with
    | 0, _ => rfl
    | n + 1, h => simp [natDigits, natDigitsGo, if_pos h]
  · rw [if_neg h10, natDigits, natDigits]
    match n, h10 with
    | n + 1, h10 =>
      simp only [natDigitsGo, if_neg h10]
      rw [natDigitsGo_congr ((n + 1) / 10) n ((n + 1) / 10) (by omega) (by omega)]

theorem natDigits_ne_nil (n : Nat) : natDigits n ≠ [] := by
  rw [natDigits_eq]
  split <;> simp

theorem digitsVal_aux_ge (l : List Char) :
    ∀ a, a ≤ l.foldl (fun a c => a * 10 + (c.toNat - 48)) a := by
  induction l with
  | nil => intro a; simp
  | cons c r ih =>
    intro a
    simp only [List.foldl_cons]
    exact le_trans (by omega) (ih (a * 10 + (c.toNat - 48)))

theorem digitsVal_cons (c : Char) (l : List Char) :
    digitsVal (c :: l) = l.foldl (fun a d => a * 10 + (d.toNat - 48)) (c.toNat - 48) := by
  simp [digitsVal]

theorem digitsVal_pos {c : Char} (l : List Char) (hd : c.isDigit = true)
    (h0 : c ≠ '0') : 0 < digitsVal (c :: l) := by
  have hb := isDigit_toNat hd
  have h48 : c.toNat ≠ 48 := fun h => h0 (char_eq_of_toNat_eq h)
  calc 0 < c.toNat - 48 := by omega
    _ ≤ _ := by rw [digitsVal_cons]; exact digitsVal_aux_ge l _

theorem digitsVal_concat (l : List Char) (c : Char) :
    digitsVal (l ++ [c]) = digitsVal l * 10 + (c.toNat - 48) := by
  simp [digitsVal, List.foldl_append]

theorem digitsVal_lt_ten {c : Char} (h : c.isDigit = true) : c.toNat - 48 < 10 := by
  have := isDigit_toNat h
  omega

/-- Printing inverts parsing on digit strings without a leading zero. -/
theorem natDigits_digitsVal : ∀ (l : List Char), l ≠ [] →
    (∀ c ∈ l, c.isDigit = true) → (∀ c, l.head? = some c → c ≠ '0') →
    natDigits (digitsVal l) = l := by
  intro l
  induction l using List.reverseRecOn with
  | nil => intro h; exact absurd rfl h
  | append_singleton xs c ih =>
    intro _ hdig hhead
    have hc : c.isDigit = true := hdig c (by simp)
    by_cases hxs : xs = []
    · subst hxs
      simp only [List.nil_append]
      have hval : digitsVal [c] = c.toNat - 48 := by
        simp [digitsVal]
      have hlt : digitsVal [c] < 10 := by
        rw [hval]; exact digitsVal_lt_ten hc
      rw [natDigits_eq, if_pos hlt, hval, digitChar_toNat_sub hc]
    · obtain ⟨h0, s, rfl⟩ := List.exists_cons_of_ne_nil hxs
      have hhd : h0 ≠ '0' := hhead h0 (by simp)
      have hpos : 0 < digitsVal (h0 :: s) :=
        digitsVal_pos s (hdig h0 (by simp)) hhd
      have hval := digitsVal_concat (h0 :: s) c
      have hclt : c.toNat - 48 < 10 := digitsVal_lt_ten hc
      have hge : ¬ digitsVal ((h0 :: s) ++ [c]) < 10 := by rw [hval]; omega
      rw [natDigits_eq, if_neg hge, hval]
      have hdiv : (digitsVal (h0 :: s) * 10 + (c.toNat - 48)) / 10 = digitsVal (h0 :: s) := by
        omega
      have hmod : (digitsVal (h0 :: s) * 10 + (c.toNat - 48)) % 10 = c.toNat - 48 := by
        omega
      rw [hdiv, hmod, digitChar_toNat_sub hc,
        ih (by simp) (fun d hd => hdig d (by simp at hd ⊢; tauto))
          (fun d hd => by simp at hd; subst hd; exact hhd)]

/-- Normalisation then padding agrees with padding alone: the list form. -/
theorem zfillL_natDigits : ∀ (l : List Char), l ≠ [] →
    (∀ c ∈ l, c.isDigit = true) → ∀ w, l.length ≤ w →
    zfillL w (natDigits (digitsVal l)) = zfillL w l := by
  intro l
  induction l with
  | nil => intro h; exact absurd rfl h
  | cons c rest ih =>
    intro _ hdig w hw
    by_cases hc0 : c = '0'
    · subst hc0
      by_cases hr : rest = []
      · subst hr
        have : natDigits (digitsVal ['0']) = ['0'] := by decide
        rw [this]
      · have hvz : digitsVal ('0' :: rest) = digitsVal rest := by
          simp [digitsVal]
        rw [hvz, ih hr (fun d hd => hdig d (List.mem_cons_of_mem _ hd)) w
          (le_trans (by simp) hw)]
        have hlen : rest.length + 1 ≤ w := by simpa using hw
        simp only [zfillL, List.length_cons]
        have heq : w - rest.length = (w - (rest.length + 1)) + 1 := by omega
        rw [heq, List.replicate_add]
        simp
    · rw [natDigits_digitsVal (c :: rest) (by simp) hdig
        (fun d hd => by simp at hd; subst hd; exact hc0)]

/-! ## Soundness facts about the matcher -/

/-- Minimal number of characters a pattern consumes. -/
def Re.minLen : Re → Nat
  | .lit s _ => s.length
  | .cls _ => 1
  | .many _ lo _ _ => lo
  | .seq a b => a.minLen + b.minLen
  | .alt a b => min a.minLen b.minLen
  | .opt _ => 0
  | .star _ => 0
  | .grp _ a => a.minLen
  | .wb => 0
  | .bos => 0
  | .eos => 0

theorem get?_some_lt {l : List α} {n : Nat} {a : α} (h : l.get? n = some a) :
    n < l.length := by
  rcases List.get?_eq_some.mp h with ⟨hlt, _⟩
  exact hlt

theorem litMatch_le {t : List Char} {ci : Bool} :
    ∀ (s : List Char) (i : Nat), litMatch t i s ci = true → i + s.length ≤ max i t.length := by
  intro s
  induction s with
  | nil => intro i _; simp
  | cons c rest ih =>
    intro i h
    simp only [litMatch] at h
    cases hg : t.get? i with
    | none => rw [hg] at h; exact absurd h (by simp)
    | some d =>
      rw [hg] at h
      have hlt : i < t.length := get?_some_lt hg
      have := ih (i + 1) (by
        simp only [Bool.and_eq_true] at h
        exact h.2)
      simp only [List.length_cons]
      omega

theorem ccRun_le (k : CC) : ∀ l : List Char, ccRun k l ≤ l.length := by
  intro l
  induction l with
  | nil => simp [ccRun]
  | cons c r ih => simp only [ccRun]; split <;> simp <;> omega

theorem runLen_le (k : CC) (t : List Char) (i : Nat) : runLen k t i ≤ t.length - i := by
  have := ccRun_le k (t.drop i)
  simpa [runLen] using this

theorem ccRun_chars (k : CC) : ∀ (l : List Char) (m : Nat), m < ccRun k l →
    ∀ c, l.get? m = some c → k.eval c = true := by
  intro l
  induction l with
  | nil => intro m hm; simp [ccRun] at hm
  | cons d r ih =>
    intro m hm c hc
    simp only [ccRun] at hm
    by_cases hd : k.eval d
    · rw [if_pos hd] at hm
      cases m with
      | zero => simp at hc; rw [← hc]; exact hd
      | succ m =>
        simp only [List.get?_cons_succ] at hc
        exact ih m (by omega) c hc
    · rw [if_neg hd] at hm; omega

theorem runLen_chars {k : CC} {t : List Char} {i j : Nat} {c : Char}
    (h1 : i ≤ j) (h2 : j < i + runLen k t i) (hc : t.get? j = some c) :
    k.eval c = true := by
  apply ccRun_chars k (t.drop i) (j - i) (by simp [runLen] at h2 ⊢; omega) c
  rw [List.get?_drop]
  have : i + (j - i) = j := by omega
  rw [this]
  exact hc

theorem manyKs_mem {lo j n : Nat} {hi : Option Nat} {lz : Bool}
    (h : j ∈ manyKs lo hi lz n) : lo ≤ j ∧ j ≤ n := by
  have key : ∀ (top : Nat),
      j ∈ (if lz = true then (List.range (top + 1 - lo)).map (· + lo)
           else ((List.range (top + 1 - lo)).map (· + lo)).reverse) →
      lo ≤ j ∧ j ≤ top := by
    intro top hj
    have hx2 : j ∈ (List.range (top + 1 - lo)).map (· + lo) := by
      split at hj
      · exact hj
      · exact List.mem_reverse.mp hj
    rcases List.mem_map.mp hx2 with ⟨d, hd, rfl⟩
    simp only [List.mem_range] at hd
    omega
  rcases hi with _ | hv
  · simp only [manyKs] at h
    split at h
    · simp at h
    · exact key n h
  · simp only [manyKs] at h
    split at h
    · simp at h
    · have := key (min n hv) h
      omega

theorem starRun_wf {m : Nat → Caps → List (Nat × Caps)} {L : Nat}
    (H : ∀ i g p, p ∈ m i g →
      i ≤ p.1 ∧ p.1 ≤ max i L ∧ (∀ c, c ∈ g → c ∈ p.2) ∧
      (∀ c, c ∈ p.2 → c ∈ g ∨ (i ≤ c.2.1 ∧ c.2.1 ≤ c.2.2 ∧ c.2.2 ≤ p.1))) :
    ∀ f i g p, p ∈ starRun m f i g →
      i ≤ p.1 ∧ p.1 ≤ max i L ∧ (∀ c, c ∈ g → c ∈ p.2) ∧
      (∀ c, c ∈ p.2 → c ∈ g ∨ (i ≤ c.2.1 ∧ c.2.1 ≤ c.2.2 ∧ c.2.2 ≤ p.1)) := by
  intro f
  induction f with
  | zero =>
    intro i g p hp
    simp only [starRun, List.mem_singleton] at hp
    subst hp
    exact ⟨le_refl _, by omega, fun c hc => hc, fun c hc => Or.inl hc⟩
  | succ f ih =>
    intro i g p hp
    simp only [starRun] at hp
    rcases List.mem_append.mp hp with hp | hp
    · rcases List.mem_flatMap.mp hp with ⟨q, hq, hpq⟩
      split at hpq
      · rcases H i g q hq with ⟨hq1, hq2, hq3, hq4⟩
        rcases ih q.1 q.2 p hpq with ⟨hp1, hp2, hp3, hp4⟩
        refine ⟨by omega, by omega, fun c hc => hp3 c (hq3 c hc), fun c hc => ?_⟩
        rcases hp4 c hc with hc2 | hc2
        · rcases hq4 c hc2 with hc3 | hc3
          · exact Or.inl hc3
          · exact Or.inr ⟨by omega, by omega, by omega⟩
        · exact Or.inr ⟨by omega, by omega, by omega⟩
      · simp at hpq
    · simp only [List.mem_singleton] at hp
      subst hp
      exact ⟨le_refl _, by omega, fun c hc => hc, fun c hc => Or.inl hc⟩

/-- Well-formedness of the matcher output: end positions respect the
minimal length and the text bounds; the input groups persist; every
group span lies inside the match. -/
theorem matchesAt_wf (t : List Char) : ∀ (re : Re) (i : Nat) (g : Caps) (p : Nat × Caps),
    p ∈ Re.matchesAt t re i g →
    i + re.minLen ≤ p.1 ∧ p.1 ≤ max i t.length ∧
    (∀ c, c ∈ g → c ∈ p.2) ∧
    (∀ c, c ∈ p.2 → c ∈ g ∨ (i ≤ c.2.1 ∧ c.2.1 ≤ c.2.2 ∧ c.2.2 ≤ p.1)) := by
  intro re
  induction re with
  | lit s ci =>
    intro i g p hp
    simp only [Re.matchesAt] at hp
    split at hp
    · simp only [List.mem_singleton] at hp
      subst hp
      refine ⟨le_of_eq rfl, ?_, fun c hc => hc, fun c hc => Or.inl hc⟩
      exact litMatch_le s i (by assumption)
    · simp at hp
  | cls k =>
    intro i g p hp
    simp only [Re.matchesAt] at hp
    split at hp
    · next c hg =>
      split at hp
      · simp only [List.mem_singleton] at hp
        subst hp
        have := get?_some_lt hg
        exact ⟨le_refl _, by omega, fun c hc => hc, fun c hc => Or.inl hc⟩
      · simp at hp
    · simp at hp
  | many k lo hi lz =>
    intro i g p hp
    simp only [Re.matchesAt] at hp
    rcases List.mem_map.mp hp with ⟨j, hj, rfl⟩
    rcases manyKs_mem hj with ⟨hj1, hj2⟩
    have := runLen_le k t i
    exact ⟨by simp [Re.minLen]; omega, by simp; omega, fun c hc => hc, fun c hc => Or.inl hc⟩
  | seq a b iha ihb =>
    intro i g p hp
    simp only [Re.matchesAt] at hp
    rcases List.mem_flatMap.mp hp with ⟨q, hq, hpq⟩
    rcases iha i g q hq with ⟨hq1, hq2, hq3, hq4⟩
    rcases ihb q.1 q.2 p hpq with ⟨hp1, hp2, hp3, hp4⟩
    refine ⟨by simp [Re.minLen]; omega, by omega, fun c hc => hp3 c (hq3 c hc), fun c hc => ?_⟩
    rcases hp4 c hc with hc2 | hc2
    · rcases hq4 c hc2 with hc3 | hc3
      · exact Or.inl hc3
      · exact Or.inr ⟨by omega, by omega, by omega⟩
    · exact Or.inr ⟨by omega, by omega, by omega⟩
  | alt a b iha ihb =>
    intro i g p hp
    simp only [Re.matchesAt] at hp
    rcases List.mem_append.mp hp with hp | hp
    · rcases iha i g p hp with ⟨h1, h2, h3, h4⟩
      exact ⟨by simp [Re.minLen]; omega, h2, h3, h4⟩
    · rcases ihb i g p hp with ⟨h1, h2, h3, h4⟩
      exact ⟨by simp [Re.minLen]; omega, h2, h3, h4⟩
  | opt a iha =>
    intro i g p hp
    simp only [Re.matchesAt] at hp
    rcases List.mem_append.mp hp with hp | hp
    · rcases iha i g p hp with ⟨h1, h2, h3, h4⟩
      exact ⟨by simp [Re.minLen]; omega, h2, h3, h4⟩
    · simp only [List.mem_singleton] at hp
      subst hp
      exact ⟨by simp [Re.minLen], by omega, fun c hc => hc, fun c hc => Or.inl hc⟩
  | star a iha =>
    intro i g p hp
    simp only [Re.matchesAt] at hp
    have := starRun_wf (L := t.length)
      (fun i' g' p' hp' => by
        rcases iha i' g' p' hp' with ⟨h1, h2, h3, h4⟩
        exact ⟨by omega, h2, h3, h4⟩)
      (t.length + 1) i g p hp
    rcases this with ⟨h1, h2, h3, h4⟩
    exact ⟨by simp [Re.minLen]; omega, h2, h3, h4⟩
  | grp n a iha =>
    intro i g p hp
    simp only [Re.matchesAt] at hp
    rcases List.mem_map.mp hp with ⟨q, hq, rfl⟩
    rcases iha i g q hq with ⟨h1, h2, h3, h4⟩
    refine ⟨by simp [Re.minLen]; omega, h2, fun c hc => List.mem_cons_of_mem _ (h3 c hc), ?_⟩
    intro c hc
    rcases List.mem_cons.mp hc with hc2 | hc2
    · subst hc2
      exact Or.inr ⟨le_refl _, by simp [Re.minLen] at h1 ⊢; omega, le_refl _⟩
    · rcases h4 c hc2 with hc3 | hc3
      · exact Or.inl hc3
      · exact Or.inr hc3
  | wb =>
    intro i g p hp
    simp only [Re.matchesAt] at hp
    split at hp
    · simp only [List.mem_singleton] at hp
      subst hp
      exact ⟨by simp [Re.minLen], by omega, fun c hc => hc, fun c hc => Or.inl hc⟩
    · simp at hp
  | bos =>
    intro i g p hp
    simp only [Re.matchesAt] at hp
    split at hp
    · simp only [List.mem_singleton] at hp
      subst hp
      exact ⟨by simp [Re.minLen], by omega, fun c hc => hc, fun c hc => Or.inl hc⟩
    · simp at hp
  | eos =>
    intro i g p hp
    simp only [Re.matchesAt] at hp
    split at hp
    · simp only [List.mem_singleton] at hp
      subst hp
      exact ⟨by simp [Re.minLen], by omega, fun c hc => hc, fun c hc => Or.inl hc⟩
    · simp at hp

/-- Propagation of a predicate on new group entries through starRun. -/
theorem starRun_caps {m : Nat → Caps → List (Nat × Caps)} {Q : Nat × Nat × Nat → Prop}
    (H : ∀ i g p, p ∈ m i g → ∀ c, c ∈ p.2 → c ∈ g ∨ Q c) :
    ∀ f i g p, p ∈ starRun m f i g → ∀ c, c ∈ p.2 → c ∈ g ∨ Q c := by
  intro f
  induction f with
  | zero =>
    intro i g p hp
    simp only [starRun, List.mem_singleton] at hp
    subst hp
    exact fun c hc => Or.inl hc
  | succ f ih =>
    intro i g p hp
    simp only [starRun] at hp
    rcases List.mem_append.mp hp with hp | hp
    · rcases List.mem_flatMap.mp hp with ⟨q, hq, hpq⟩
      split at hpq
      · intro c hc
        rcases ih q.1 q.2 p hpq c hc with hc2 | hc2
        · exact H i g q hq c hc2
        · exact Or.inr hc2
      · simp at hpq
    · simp only [List.mem_singleton] at hp
      subst hp
      exact fun c hc => Or.inl hc

/-- Every group numbered n inside re has a body consuming at least k
characters. -/
def grpMinOK (n k : Nat) : Re → Bool
  | .grp m a => (if m = n then decide (k ≤ a.minLen) else true) && grpMinOK n k a
  | .seq a b => grpMinOK n k a && grpMinOK n k b
  | .alt a b => grpMinOK n k a && grpMinOK n k b
  | .opt a => grpMinOK n k a
  | .star a => grpMinOK n k a
  | _ => true

/-- New group-n spans are at least k characters wide when grpMinOK holds. -/
theorem matchesAt_grpMin (t : List Char) (n k : Nat) :
    ∀ (re : Re) (i : Nat) (g : Caps) (p : Nat × Caps), grpMinOK n k re = true →
    p ∈ Re.matchesAt t re i g →
    ∀ c, c ∈ p.2 → c ∈ g ∨ (c.1 = n → k ≤ c.2.2 - c.2.1) := by
  intro re
  induction re with
  | lit s ci =>
    intro i g p hok hp
    simp only [Re.matchesAt] at hp
    split at hp
    · simp only [List.mem_singleton] at hp; subst hp; exact fun c hc => Or.inl hc
    · simp at hp
  | cls k2 =>
    intro i g p hok hp
    simp only [Re.matchesAt] at hp
    split at hp
    · split at hp
      · simp only [List.mem_singleton] at hp; subst hp; exact fun c hc => Or.inl hc
      · simp at hp
    · simp at hp
  | many k2 lo hi lz =>
    intro i g p hok hp
    simp only [Re.matchesAt] at hp
    rcases List.mem_map.mp hp with ⟨j, _, rfl⟩
    exact fun c hc => Or.inl hc
  | seq a b iha ihb =>
    intro i g p hok hp
    simp only [grpMinOK, Bool.and_eq_true] at hok
    simp only [Re.matchesAt] at hp
    rcases List.mem_flatMap.mp hp with ⟨q, hq, hpq⟩
    intro c hc
    rcases ihb q.1 q.2 p hok.2 hpq c hc with hc2 | hc2
    · exact iha i g q hok.1 hq c hc2
    · exact Or.inr hc2
  | alt a b iha ihb =>
    intro i g p hok hp
    simp only [grpMinOK, Bool.and_eq_true] at hok
    simp only [Re.matchesAt] at hp
    rcases List.mem_append.mp hp with hp | hp
    · exact iha i g p hok.1 hp
    · exact ihb i g p hok.2 hp
  | opt a iha =>
    intro i g p hok hp
    simp only [grpMinOK] at hok
    simp only [Re.matchesAt] at hp
    rcases List.mem_append.mp hp with hp | hp
    · exact iha i g p hok hp
    · simp only [List.mem_singleton] at hp; subst hp; exact fun c hc => Or.inl hc
  | star a iha =>
    intro i g p hok hp
    simp only [grpMinOK] at hok
    simp only [Re.matchesAt] at hp
    exact starRun_caps (fun i' g' p' hp' => iha i' g' p' hok hp') (t.length + 1) i g p hp
  | grp m a iha =>
    intro i g p hok hp
    simp only [grpMinOK, Bool.and_eq_true] at hok
    simp only [Re.matchesAt] at hp
    rcases List.mem_map.mp hp with ⟨q, hq, rfl⟩
    intro c hc
    rcases List.mem_cons.mp hc with hc2 | hc2
    · subst hc2
      refine Or.inr (fun hcn => ?_)
      simp only at hcn
      subst hcn
      rw [if_pos rfl] at hok
      have hk : k ≤ a.minLen := of_decide_eq_true hok.1
      have := (matchesAt_wf t a i g q hq).1
      simp only
      omega
    · exact iha i g q hok.2 hq c hc2
  | wb =>
    intro i g p hok hp
    simp only [Re.matchesAt] at hp
    split at hp
    · simp only [List.mem_singleton] at hp; subst hp; exact fun c hc => Or.inl hc
    · simp at hp
  | bos =>
    intro i g p hok hp
    simp only [Re.matchesAt] at hp
    split at hp
    · simp only [List.mem_singleton] at hp; subst hp; exact fun c hc => Or.inl hc
    · simp at hp
  | eos =>
    intro i g p hok hp
    simp only [Re.matchesAt] at hp
    split at hp
    · simp only [List.mem_singleton] at hp; subst hp; exact fun c hc => Or.inl hc
    · simp at hp

/-- The class k only contains characters satisfying p. -/
def ccImp (k : CC) (p : Char → Bool) : Prop := ∀ c, k.eval c = true → p c = true

/-- A literal character comparison only accepts characters satisfying p. -/
def litOk (s : List Char) (ci : Bool) (p : Char → Bool) : Prop :=
  ∀ c d, d ∈ s → (if ci then pyLower c = pyLower d else c = d) → p c = true

/-- Every character the pattern can consume satisfies p. -/
def Re.allCls (p : Char → Bool) : Re → Prop
  | .lit s ci => litOk s ci p
  | .cls k => ccImp k p
  | .many k _ _ _ => ccImp k p
  | .seq a b => allCls p a ∧ allCls p b
  | .alt a b => allCls p a ∧ allCls p b
  | .opt a => allCls p a
  | .star a => allCls p a
  | .grp _ a => allCls p a
  | .wb => True
  | .bos => True
  | .eos => True

theorem litMatch_chars {t : List Char} {ci : Bool} :
    ∀ (s : List Char) (i : Nat), litMatch t i s ci = true →
    ∀ j c, i ≤ j → j < i + s.length → t.get? j = some c →
    ∃ d, d ∈ s ∧ (if ci then pyLower c = pyLower d else c = d) := by
  intro s
  induction s with
  | nil => intro i _ j c _ hlt _; simp at hlt; omega
  | cons d rest ih =>
    intro i h j c hij hlt hc
    simp only [litMatch] at h
    split at h
    · next e hg =>
      simp only [Bool.and_eq_true] at h
      by_cases hji : j = i
      · subst hji
        rw [hg] at hc
        have hce : c = e := by simpa using hc.symm
        subst hce
        refine ⟨d, by simp, ?_⟩
        rcases h with ⟨h1, _⟩
        split at h1 <;> split <;> simp_all
      · rcases ih (i + 1) h.2 j c (by omega) (by simp at hlt ⊢; omega) hc with ⟨d2, hd2, hcmp⟩
        exact ⟨d2, by simp [hd2], hcmp⟩
    · simp at h

theorem starRun_region {m : Nat → Caps → List (Nat × Caps)} {t : List Char} {p? : Char → Bool}
    (H : ∀ i g q, q ∈ m i g → ∀ j c, i ≤ j → j < q.1 → t.get? j = some c → p? c = true) :
    ∀ f i g q, q ∈ starRun m f i g →
      ∀ j c, i ≤ j → j < q.1 → t.get? j = some c → p? c = true := by
  intro f
  induction f with
  | zero =>
    intro i g q hq j c hij hjq _
    simp only [starRun, List.mem_singleton] at hq
    subst hq
    simp at hjq
    omega
  | succ f ih =>
    intro i g q hq j c hij hjq hc
    simp only [starRun] at hq
    rcases List.mem_append.mp hq with hq | hq
    · rcases List.mem_flatMap.mp hq with ⟨q2, hq2, hqq⟩
      split at hqq
      · by_cases hj2 : j < q2.1
        · exact H i g q2 hq2 j c hij hj2 hc
        · exact ih q2.1 q2.2 q hqq j c (by omega) hjq hc
      · simp at hqq
    · simp only [List.mem_singleton] at hq
      subst hq
      simp at hjq
      omega

/-- Characters inside the consumed region of an allCls pattern satisfy p. -/
theorem matchesAt_region (t : List Char) (p? : Char → Bool) :
    ∀ (re : Re) (i : Nat) (g : Caps) (q : Nat × Caps), re.allCls p? →
    q ∈ Re.matchesAt t re i g →
    ∀ j c, i ≤ j → j < q.1 → t.get? j = some c → p? c = true := by
  intro re
  induction re with
  | lit s ci =>
    intro i g q hcls hq j c hij hjq hc
    simp only [Re.matchesAt] at hq
    split at hq
    · simp only [List.mem_singleton] at hq
      subst hq
      rcases litMatch_chars s i (by assumption) j c hij (by simpa using hjq) hc with ⟨d, hd, hcmp⟩
      exact hcls c d hd hcmp
    · simp at hq
  | cls k =>
    intro i g q hcls hq j c hij hjq hc
    simp only [Re.matchesAt] at hq
    split at hq
    · next e hg =>
      split at hq
      · simp only [List.mem_singleton] at hq
        subst hq
        simp only at hjq
        have hji : j = i := by omega
        subst hji
        rw [hg] at hc
        have hce : c = e := by simpa using hc.symm
        subst hce
        exact hcls c (by assumption)
      · simp at hq
    · simp at hq
  | many k lo hi lz =>
    intro i g q hcls hq j c hij hjq hc
    simp only [Re.matchesAt] at hq
    rcases List.mem_map.mp hq with ⟨j2, hj2, rfl⟩
    rcases manyKs_mem hj2 with ⟨_, hj2b⟩
    simp only at hjq
    exact hcls c (runLen_chars hij (by omega) hc)
  | seq a b iha ihb =>
    intro i g q hcls hq j c hij hjq hc
    simp only [Re.matchesAt] at hq
    rcases List.mem_flatMap.mp hq with ⟨q2, hq2, hqq⟩
    by_cases hj2 : j < q2.1
    · exact iha i g q2 hcls.1 hq2 j c hij hj2 hc
    · exact ihb q2.1 q2.2 q hcls.2 hqq j c (by omega) hjq hc
  | alt a b iha ihb =>
    intro i g q hcls hq j c hij hjq hc
    simp only [Re.matchesAt] at hq
    rcases List.mem_append.mp hq with hq | hq
    · exact iha i g q hcls.1 hq j c hij hjq hc
    · exact ihb i g q hcls.2 hq j c hij hjq hc
  | opt a iha =>
    intro i g q hcls hq j c hij hjq hc
    simp only [Re.matchesAt] at hq
    rcases List.mem_append.mp hq with hq | hq
    · exact iha i g q hcls hq j c hij hjq hc
    · simp only [List.mem_singleton] at hq; subst hq; simp at hjq; omega
  | star a iha =>
    intro i g q hcls hq j c hij hjq hc
    simp only [Re.matchesAt] at hq
    exact starRun_region (fun i' g' q' hq' => iha i' g' q' hcls hq')
      (t.length + 1) i g q hq j c hij hjq hc
  | grp n a iha =>
    intro i g q hcls hq j c hij hjq hc
    simp only [Re.matchesAt] at hq
    rcases List.mem_map.mp hq with ⟨q2, hq2, rfl⟩
    exact iha i g q2 hcls hq2 j c hij (by simpa using hjq) hc
  | wb =>
    intro i g q hcls hq j c hij hjq hc
    simp only [Re.matchesAt] at hq
    split at hq
    · simp only [List.mem_singleton] at hq; subst hq; simp at hjq; omega
    · simp at hq
  | bos =>
    intro i g q hcls hq j c hij hjq hc
    simp only [Re.matchesAt] at hq
    split at hq
    · simp only [List.mem_singleton] at hq; subst hq; simp at hjq; omega
    · simp at hq
  | eos =>
    intro i g q hcls hq j c hij hjq hc
    simp only [Re.matchesAt] at hq
    split at hq
    · simp only [List.mem_singleton] at hq; subst hq; simp at hjq; omega
    · simp at hq

/-- Every group numbered n inside re has an allCls body. -/
def grpClsOK (n : Nat) (p? : Char → Bool) : Re → Prop
  | .grp m a => (m = n → a.allCls p?) ∧ grpClsOK n p? a
  | .seq a b => grpClsOK n p? a ∧ grpClsOK n p? b
  | .alt a b => grpClsOK n p? a ∧ grpClsOK n p? b
  | .opt a => grpClsOK n p? a
  | .star a => grpClsOK n p? a
  | _ => True

/-- Characters inside new group-n spans satisfy p when grpClsOK holds. -/
theorem matchesAt_grpCls (t : List Char) (n : Nat) (p? : Char → Bool) :
    ∀ (re : Re) (i : Nat) (g : Caps) (q : Nat × Caps), grpClsOK n p? re →
    q ∈ Re.matchesAt t re i g →
    ∀ c, c ∈ q.2 → c ∈ g ∨ (c.1 = n →
      ∀ j ch, c.2.1 ≤ j → j < c.2.2 → t.get? j = some ch → p? ch = true) := by
  intro re
  induction re with
  | lit s ci =>
    intro i g q _ hq
    simp only [Re.matchesAt] at hq
    split at hq
    · simp only [List.mem_singleton] at hq; subst hq; exact fun c hc => Or.inl hc
    · simp at hq
  | cls k =>
    intro i g q _ hq
    simp only [Re.matchesAt] at hq
    split at hq
    · split at hq
      · simp only [List.mem_singleton] at hq; subst hq; exact fun c hc => Or.inl hc
      · simp at hq
    · simp at hq
  | many k lo hi lz =>
    intro i g q _ hq
    simp only [Re.matchesAt] at hq
    rcases List.mem_map.mp hq with ⟨j, _, rfl⟩
    exact fun c hc => Or.inl hc
  | seq a b iha ihb =>
    intro i g q hok hq
    simp only [Re.matchesAt] at hq
    rcases List.mem_flatMap.mp hq with ⟨q2, hq2, hqq⟩
    intro c hc
    rcases ihb q2.1 q2.2 q hok.2 hqq c hc with hc2 | hc2
    · exact iha i g q2 hok.1 hq2 c hc2
    · exact Or.inr hc2
  | alt a b iha ihb =>
    intro i g q hok hq
    simp only [Re.matchesAt] at hq
    rcases List.mem_append.mp hq with hq | hq
    · exact iha i g q hok.1 hq
    · exact ihb i g q hok.2 hq
  | opt a iha =>
    intro i g q hok hq
    simp only [Re.matchesAt] at hq
    rcases List.mem_append.mp hq with hq | hq
    · exact iha i g q hok hq
    · simp only [List.mem_singleton] at hq; subst hq; exact fun c hc => Or.inl hc
  | star a iha =>
    intro i g q hok hq
    simp only [Re.matchesAt] at hq
    exact starRun_caps (fun i' g' q' hq' => iha i' g' q' hok hq') (t.length + 1) i g q hq
  | grp m a iha =>
    intro i g q hok hq
    simp only [Re.matchesAt] at hq
    rcases List.mem_map.mp hq with ⟨q2, hq2, rfl⟩
    intro c hc
    rcases List.mem_cons.mp hc with hc2 | hc2
    · subst hc2
      refine Or.inr (fun hcn => ?_)
      simp only at hcn
      subst hcn
      intro j ch hj1 hj2 hch
      exact matchesAt_region t p? a i g q2 (hok.1 rfl) hq2 j ch hj1 hj2 hch
    · exact iha i g q2 hok.2 hq2 c hc2
  | wb =>
    intro i g q _ hq
    simp only [Re.matchesAt] at hq
    split at hq
    · simp only [List.mem_singleton] at hq; subst hq; exact fun c hc => Or.inl hc
    · simp at hq
  | bos =>
    intro i g q _ hq
    simp only [Re.matchesAt] at hq
    split at hq
    · simp only [List.mem_singleton] at hq; subst hq; exact fun c hc => Or.inl hc
    · simp at hq
  | eos =>
    intro i g q _ hq
    simp only [Re.matchesAt] at hq
    split at hq
    · simp only [List.mem_singleton] at hq; subst hq; exact fun c hc => Or.inl hc
    · simp at hq

/-- Group n participates in every match of re. -/
def grpMust (n : Nat) : Re → Bool
  | .grp m a => m == n || grpMust n a
  | .seq a b => grpMust n a || grpMust n b
  | .alt a b => grpMust n a && grpMust n b
  | _ => false

/-- A grpMust group has an entry in the output capture list. -/
theorem matchesAt_grpMust (t : List Char) (n : Nat) :
    ∀ (re : Re) (i : Nat) (g : Caps) (q : Nat × Caps), grpMust n re = true →
    q ∈ Re.matchesAt t re i g → ∃ sp, (n, sp) ∈ q.2 := by
  intro re
  induction re with
  | lit s ci => intro i g q hok _; simp [grpMust] at hok
  | cls k => intro i g q hok _; simp [grpMust] at hok
  | many k lo hi lz => intro i g q hok _; simp [grpMust] at hok
  | seq a b iha ihb =>
    intro i g q hok hq
    simp only [grpMust, Bool.or_eq_true] at hok
    simp only [Re.matchesAt] at hq
    rcases List.mem_flatMap.mp hq with ⟨q2, hq2, hqq⟩
    rcases hok with hok | hok
    · rcases iha i g q2 hok hq2 with ⟨sp, hsp⟩
      exact ⟨sp, (matchesAt_wf t b q2.1 q2.2 q hqq).2.2.1 _ hsp⟩
    · exact ihb q2.1 q2.2 q hok hqq
  | alt a b iha ihb =>
    intro i g q hok hq
    simp only [grpMust, Bool.and_eq_true] at hok
    simp only [Re.matchesAt] at hq
    rcases List.mem_append.mp hq with hq | hq
    · exact iha i g q hok.1 hq
    · exact ihb i g q hok.2 hq
  | opt a iha => intro i g q hok _; simp [grpMust] at hok
  | star a iha => intro i g q hok _; simp [grpMust] at hok
  | grp m a iha =>
    intro i g q hok hq
    simp only [grpMust, Bool.or_eq_true, beq_iff_eq] at hok
    simp only [Re.matchesAt] at hq
    rcases List.mem_map.mp hq with ⟨q2, hq2, rfl⟩
    rcases hok with hok | hok
    · subst hok
      exact ⟨(i, q2.1), by simp⟩
    · rcases iha i g q2 hok hq2 with ⟨sp, hsp⟩
      exact ⟨sp, List.mem_cons_of_mem _ hsp⟩
  | wb => intro i g q hok _; simp [grpMust] at hok
  | bos => intro i g q hok _; simp [grpMust] at hok
  | eos => intro i g q hok _; simp [grpMust] at hok

/-- A successful search comes from a match at its start position. -/
theorem searchFrom_mem {re : Re} {t : List Char} {i0 s e : Nat} {g : Caps}
    (h : searchFrom re t i0 = some (s, e, g)) :
    s ≤ t.length ∧ (e, g) ∈ Re.matchesAt t re s [] := by
  rcases List.exists_of_findSome?_eq_some h with ⟨d, hd, hf⟩
  simp only [List.mem_range] at hd
  rcases Option.map_eq_some'.mp hf with ⟨p, hp, hpe⟩
  have hs : i0 + d = s := congrArg (fun x => x.1) hpe
  have hev : p = (e, g) := by
    have h1 : p.1 = e := congrArg (fun x => x.2.1) hpe
    have h2 : p.2 = g := congrArg (fun x => x.2.2) hpe
    exact Prod.ext h1 h2
  subst hs hev
  exact ⟨by omega, List.mem_of_mem_head? hp⟩

/-- Combined well-formedness of a successful search (top-level searches
start with no groups, so every capture entry is a span of the match). -/
theorem searchFrom_wf {re : Re} {t : List Char} {i0 s e : Nat} {g : Caps}
    (h : searchFrom re t i0 = some (s, e, g)) :
    s + re.minLen ≤ e ∧ e ≤ t.length ∧ s ≤ t.length ∧
    ∀ c ∈ g, s ≤ c.2.1 ∧ c.2.1 ≤ c.2.2 ∧ c.2.2 ≤ e := by
  rcases searchFrom_mem h with ⟨hs, hm⟩
  rcases matchesAt_wf t re s [] (e, g) hm with ⟨h1, h2, _, h4⟩
  refine ⟨h1, by simp at h2; omega, hs, fun c hc => ?_⟩
  rcases h4 c hc with hc2 | hc2
  · simp at hc2
  · exact hc2

theorem searchFrom_grpMin {re : Re} {t : List Char} {i0 s e n k : Nat} {g : Caps}
    (hok : grpMinOK n k re = true) (h : searchFrom re t i0 = some (s, e, g)) :
    ∀ c ∈ g, c.1 = n → k ≤ c.2.2 - c.2.1 := by
  rcases searchFrom_mem h with ⟨_, hm⟩
  intro c hc hcn
  rcases matchesAt_grpMin t n k re s [] (e, g) hok hm c hc with hc2 | hc2
  · simp at hc2
  · exact hc2 hcn

theorem searchFrom_grpCls {re : Re} {t : List Char} {i0 s e n : Nat} {g : Caps}
    {p? : Char → Bool} (hok : grpClsOK n p? re) (h : searchFrom re t i0 = some (s, e, g)) :
    ∀ c ∈ g, c.1 = n → ∀ j ch, c.2.1 ≤ j → j < c.2.2 → t.get? j = some ch → p? ch = true := by
  rcases searchFrom_mem h with ⟨_, hm⟩
  intro c hc hcn
  rcases matchesAt_grpCls t n p? re s [] (e, g) hok hm c hc with hc2 | hc2
  · simp at hc2
  · exact hc2 hcn

theorem searchFrom_grpMust {re : Re} {t : List Char} {i0 s e n : Nat} {g : Caps}
    (hok : grpMust n re = true) (h : searchFrom re t i0 = some (s, e, g)) :
    ∃ sp, (n, sp) ∈ g := by
  rcases searchFrom_mem h with ⟨_, hm⟩
  exact matchesAt_grpMust t n re s [] (e, g) hok hm

/-- Every finditer element is a successful search result. -/
theorem finditerGo_mem {re : Re} {t : List Char} :
    ∀ (f i : Nat) (m : Nat × Nat × Caps), m ∈ finditerGo re t f i →
    ∃ i0, searchFrom re t i0 = some m := by
  intro f
  induction f with
  | zero => intro i m hm; simp [finditerGo] at hm
  | succ f ih =>
    intro i m hm
    simp only [finditerGo] at hm
    split at hm
    · simp at hm
    · next m2 hs =>
      rcases List.mem_cons.mp hm with hm | hm
      · subst hm; exact ⟨i, hs⟩
      · exact ih _ m hm

theorem reFinditer_mem {re : Re} {t : List Char} {m : Nat × Nat × Caps}
    (hm : m ∈ reFinditer re t) : ∃ i0, searchFrom re t i0 = some m :=
  finditerGo_mem _ _ m hm

/-- The capture lookup returns the span of a recorded group entry. -/
theorem capGet_spec {t : List Char} {g : Caps} {n : Nat} {u : List Char}
    (h : capGet t g n = some u) :
    ∃ cs ce, (n, cs, ce) ∈ g ∧ u = sliceTxt t cs ce := by
  rcases Option.map_eq_some'.mp h with ⟨c, hc, hu⟩
  have hmem := List.mem_of_find?_eq_some hc
  have hpred := List.find?_some hc
  simp only [beq_iff_eq] at hpred
  refine ⟨c.2.1, c.2.2, ?_, hu.symm⟩
  rcases c with ⟨n2, cs, ce⟩
  simp only at hpred
  subst hpred
  exact hmem

theorem capGet_isSome {t : List Char} {g : Caps} {n : Nat}
    (h : ∃ sp, (n, sp) ∈ g) : (capGet t g n).isSome := by
  rcases h with ⟨sp, hsp⟩
  simp only [capGet, Option.isSome_map']
  rw [List.find?_isSome]
  exact ⟨(n, sp), hsp, by simp⟩

theorem sliceTxt_ne_nil {t : List Char} {s e : Nat} (h1 : s < e) (h2 : s < t.length) :
    sliceTxt t s e ≠ [] := by
  have : (sliceTxt t s e).length = min (e - s) (t.length - s) := by
    simp [sliceTxt]
  intro hc
  rw [hc] at this
  simp at this
  omega

theorem sliceTxt_all {t : List Char} {s e : Nat} {p? : Char → Bool}
    (h : ∀ j c, s ≤ j → j < e → t.get? j = some c → p? c = true) :
    (sliceTxt t s e).all p? = true := by
  rw [List.all_eq_true]
  intro x hx
  rcases List.mem_iff_get?.mp hx with ⟨idx, hidx⟩
  have hlen : idx < (sliceTxt t s e).length := get?_some_lt hidx
  have hlen2 : idx < e - s := by
    have : (sliceTxt t s e).length = min (e - s) (t.length - s) := by simp [sliceTxt]
    omega
  have hget : t.get? (s + idx) = some x := by
    have h1 : (sliceTxt t s e).get? idx = ((t.drop s).take (e - s)).get? idx := rfl
    rw [h1, List.get?_take hlen2, List.get?_drop] at hidx
    exact hidx
  exact h (s + idx) x (by omega) (by omega) hget

/-! ## Facts about the field extractors -/

/-- The characters a CUIT capture can contain: digits and dashes. -/
def ddPred (c : Char) : Bool := c.isDigit || c == '-'

theorem grpClsOK_cuit : ∀ pat ∈ [patCuit1, patCuit2, patCuit3, patCuit4],
    grpClsOK 1 ddPred pat := by
  intro pat hp
  simp only [List.mem_cons, List.not_mem_nil, or_false] at hp
  rcases hp with rfl | rfl | rfl | rfl <;>
    simp [patCuit1, patCuit2, patCuit3, patCuit4, cat, grpClsOK, Re.allCls,
      litOk, ccImp, CC.eval, ddPred] <;>
    exact fun c h => Or.inl h

/-- Finditer captures of a grpClsOK group are made of p-characters. -/
theorem finditer_cap_all {re : Re} {t : List Char} {n : Nat} {p? : Char → Bool}
    (hok : grpClsOK n p? re) :
    ∀ m ∈ reFinditer re t, ((capGet t m.2.2 n).getD []).all p? = true := by
  intro m hm
  rcases m with ⟨s, e, g⟩
  cases hcap : capGet t g n with
  | none => simp
  | some u =>
    simp only [Option.getD_some]
    rcases capGet_spec hcap with ⟨cs, ce, hmem, rfl⟩
    rcases reFinditer_mem hm with ⟨i0, hs⟩
    exact sliceTxt_all (searchFrom_grpCls hok hs (n, cs, ce) hmem rfl)

theorem filter_dash_digits {cap : List Char} (h : cap.all ddPred = true) :
    (cap.filter (fun c => c != '-')).all Char.isDigit = true := by
  rw [List.all_eq_true] at h ⊢
  intro x hx
  rcases List.mem_filter.mp hx with ⟨hx1, hx2⟩
  have := h x hx1
  simp [ddPred] at this hx2 ⊢
  tauto

/-- The invariant kept by the CUIT collector. -/
def cuitsInv (cs : List String) : Prop :=
  cs.Nodup ∧ ∀ x ∈ cs, x.length = 11 ∧ x.data.all Char.isDigit = true

theorem agregarCuit_inv {cs : List String} {cap : List Char}
    (h : cuitsInv cs) (hcap : cap.all ddPred = true) : cuitsInv (agregarCuit cs cap) := by
  simp only [agregarCuit]
  split
  · next hcond =>
    simp only [Bool.and_eq_true, Bool.not_eq_true'] at hcond
    constructor
    · simp [List.nodup_append]
      refine ⟨h.1, ?_⟩
      have := hcond.1
      simp at this
      exact this
    · intro x hx
      rcases List.mem_append.mp hx with hx | hx
      · exact h.2 x hx
      · simp only [List.mem_singleton] at hx
        subst hx
        refine ⟨by have := hcond.2; simpa using this, filter_dash_digits hcap⟩
  · exact h

theorem foldl_inv {α β : Type} {P : β → Prop} {Q : α → Prop} {f : β → α → β}
    (hstep : ∀ b a, P b → Q a → P (f b a)) :
    ∀ (l : List α) (b : β), (∀ a ∈ l, Q a) → P b → P (l.foldl f b) := by
  intro l
  induction l with
  | nil => intro b _ hb; exact hb
  | cons a r ih =>
    intro b hq hb
    exact ih (f b a) (fun x hx => hq x (List.mem_cons_of_mem _ hx))
      (hstep b a hb (hq a (List.mem_cons_self _ _)))

/-- Every collected CUIT is new, 11 characters long and all digits. -/
theorem extraerCuits_inv (texto : String) : cuitsInv (extraerCuits texto) := by
  unfold extraerCuits
  apply foldl_inv (Q := fun pat => grpClsOK 1 ddPred pat)
  · intro cs pat hP hQ
    apply foldl_inv
      (Q := fun m => ((capGet texto.data m.2.2 1).getD []).all ddPred = true)
    · intro cs2 m hP2 hQ2
      exact agregarCuit_inv hP2 hQ2
    · exact fun m hm => finditer_cap_all hQ m hm
    · exact hP
  · exact grpClsOK_cuit
  · exact ⟨List.nodup_nil, by simp⟩

/-- A capture of a mandatory group with positive minimal width is a
nonempty substring. -/
theorem capGetD_ne_nil {re : Re} {t : List Char} {i0 s e n : Nat} {g : Caps}
    (hmust : grpMust n re = true) (hmin : grpMinOK n 1 re = true)
    (h : searchFrom re t i0 = some (s, e, g)) : (capGet t g n).getD [] ≠ [] := by
  have hsome := capGet_isSome (t := t) (searchFrom_grpMust hmust h)
  rcases Option.isSome_iff_exists.mp hsome with ⟨u, hu⟩
  rw [hu, Option.getD_some]
  rcases capGet_spec hu with ⟨cs, ce, hmem, rfl⟩
  have hb := (searchFrom_wf h).2.2.2 _ hmem
  have hk := searchFrom_grpMin hmin h _ hmem rfl
  have he : e ≤ t.length := (searchFrom_wf h).2.1
  simp only at hb hk
  exact sliceTxt_ne_nil (by omega) (by omega)

theorem capStr_ne_empty {re : Re} {t : List Char} {i0 s e n : Nat} {g : Caps}
    (hmust : grpMust n re = true) (hmin : grpMinOK n 1 re = true)
    (h : searchFrom re t i0 = some (s, e, g)) : capStr t g n ≠ "" := by
  intro hc
  exact capGetD_ne_nil hmust hmin h (congrArg String.data hc)

/-- Whole matches of a pattern with positive minimal length are nonempty. -/
theorem findallWhole_ne_nil {re : Re} {t : List Char} (hmin : 1 ≤ re.minLen) :
    ∀ u ∈ reFindallWhole re t, u ≠ [] := by
  intro u hu
  rcases List.mem_map.mp hu with ⟨m, hm, rfl⟩
  rcases m with ⟨s, e, g⟩
  rcases reFinditer_mem hm with ⟨i0, hs⟩
  rcases searchFrom_wf hs with ⟨h1, h2, _, _⟩
  dsimp only
  exact sliceTxt_ne_nil (by omega) (by omega)

theorem string_mk_ne_empty {u : List Char} (h : u ≠ []) : (⟨u⟩ : String) ≠ "" :=
  fun hc => h (congrArg String.data hc)

theorem fmtFechaHoy_ne (hoy : Hoy) : fmtFechaHoy hoy ≠ "" := by
  apply string_mk_ne_empty
  intro hc
  rcases List.append_eq_nil.mp hc with ⟨_, h2⟩
  simp at h2

theorem fmtPeriodoHoy_ne (hoy : Hoy) : fmtPeriodoHoy hoy ≠ "" := by
  apply string_mk_ne_empty
  intro hc
  rcases List.append_eq_nil.mp hc with ⟨_, h2⟩
  exact natDigits_ne_nil hoy.anyo h2

/-- extraer_fecha always returns a nonempty string. -/
theorem extraerFecha_ne (texto : String) (hoy : Hoy) : extraerFecha texto hoy ≠ "" := by
  simp only [extraerFecha]
  split
  · next m hs =>
    rcases m with ⟨s, e, g⟩
    exact capStr_ne_empty (by decide) (by decide) hs
  · next hs =>
    split
    · next hlen =>
      have h3 : 3 < (reFindallWhole patFechaSlash texto.data).length := by omega
      rw [List.get?_eq_get h3, Option.getD_some]
      exact string_mk_ne_empty
        (findallWhole_ne_nil (by decide) _ (List.get_mem _ _ _))
    · next hlen =>
      split
      · next hne =>
        simp only [Bool.not_eq_true', List.isEmpty_eq_false_iff_exists_mem] at hne
        rcases hne with ⟨u, hu⟩
        have hh : (reFindallWhole patFechaSlash texto.data).head? =
            some ((reFindallWhole patFechaSlash texto.data).head (by
              intro hc; rw [hc] at hu; simp at hu)) := List.head?_eq_head _
        rw [hh, Option.getD_some]
        exact string_mk_ne_empty
          (findallWhole_ne_nil (by decide) _ (List.head_mem _))
      · split
        · next a hh =>
          apply string_mk_ne_empty
          have hne : a ≠ [] := findallWhole_ne_nil (by decide) a
            (List.mem_of_mem_head? hh)
          simpa using hne
        · exact fmtFechaHoy_ne hoy

theorem mesesLookup_ne {s mm : String} (h : mesesLookup s = some mm) : mm ≠ "" := by
  unfold mesesLookup at h
  rcases Option.map_eq_some'.mp h with ⟨p, hp, rfl⟩
  have hmem := List.mem_of_find?_eq_some hp
  have hvals : ∀ q ∈ MESES, q.2 ≠ "" := by decide
  exact hvals p hmem

/-- extraer_periodo always returns a nonempty string. -/
theorem extraerPeriodo_ne (texto : String) (hoy : Hoy) : extraerPeriodo texto hoy ≠ "" := by
  simp only [extraerPeriodo]
  split
  · next m hs =>
    rcases m with ⟨s, e, g⟩
    apply string_mk_ne_empty
    intro hc
    rcases List.append_eq_nil.mp hc with ⟨h1, _⟩
    exact capGetD_ne_nil (n := 1) (by decide) (by decide) hs h1
  · next hs =>
    split
    · next m hs2 =>
      rcases m with ⟨s, e, g⟩
      split
      · next mm hmm =>
        apply string_mk_ne_empty
        intro hc
        rcases List.append_eq_nil.mp hc with ⟨h1, _⟩
        exact mesesLookup_ne hmm (by
          have hmd : mm.data = [] := h1
          cases mm
          subst hmd
          rfl)
      · exact fmtPeriodoHoy_ne hoy
    · exact fmtPeriodoHoy_ne hoy

theorem CODIGO_CBTE_vals {t l c : String} (h : CODIGO_CBTE t l = some c) :
    c = "03" ∨ c = "04" ∨ c = "05" ∨ c = "06" := by
  unfold CODIGO_CBTE at h
  split at h <;> first
    | (simp only [Option.some.injEq] at h; subst h; simp)
    | (split at h <;> first
        | (simp only [Option.some.injEq] at h; subst h; simp)
        | (split at h <;> first
            | (simp only [Option.some.injEq] at h; subst h; simp)
            | (split at h <;>
                first
                | (simp only [Option.some.injEq] at h; subst h; simp)
                | simp at h)))

theorem codigoCbteDe_vals {texto c : String} (h : codigoCbteDe texto = some c) :
    c = "03" ∨ c = "04" ∨ c = "05" ∨ c = "06" := by
  unfold codigoCbteDe at h
  split at h
  · exact CODIGO_CBTE_vals h
  · simp at h

theorem pyTruthyOpt_getD {o : Option String} (h : pyTruthyOpt o = true) :
    o.getD "" ≠ "" := by
  cases o with
  | none => simp [pyTruthyOpt] at h
  | some v =>
    simp only [pyTruthyOpt, Bool.not_eq_true'] at h
    simp only [Option.getD_some]
    intro hc
    subst hc
    simp at h

/-- The successful case of extraer_info_pdf determines the identity
fields, with point of sale and number nonempty. -/
theorem extraerInfo_some {texto : String} {hoy : Hoy} {r : Info}
    (h : extraerInfo texto hoy = some r) :
    (extraerCuits texto).head? = some r.cuit_pre ∧
    codigoCbteDe texto = some r.codigo_cbte ∧
    r.pv ≠ "" ∧ r.nro ≠ "" ∧
    r.fecha_cbte = extraerFecha texto hoy ∧
    r.periodo = extraerPeriodo texto hoy := by
  unfold extraerInfo at h
  split at h
  · simp at h
  · next cuit hc =>
    split at h
    · simp at h
    · next cod hcod =>
      rcases hpv : extraerPvNro texto with ⟨opv, onro⟩
      rw [hpv] at h
      dsimp only at h
      split at h
      · next hcond =>
        rcases hcae : extraerCae texto with ⟨ocae, oemi⟩
        rw [hcae] at h
        rcases hact : mapActividad texto with ⟨act, dep⟩
        rw [hact] at h
        dsimp only at h
        simp only [Option.some.injEq] at h
        subst h
        simp only [Bool.and_eq_true] at hcond
        exact ⟨hc, hcod, pyTruthyOpt_getD hcond.1, pyTruthyOpt_getD hcond.2,
          rfl, rfl⟩
      · simp at h

/-- Extraction fails when the comprobante code is undetermined. -/
theorem codigoNone_info_none {texto : String} (hoy : Hoy)
    (h : codigoCbteDe texto = none) : extraerInfo texto hoy = none := by
  unfold extraerInfo
  split
  · rfl
  · rw [h]

/-- Extraction fails when no CUIT was collected. -/
theorem cuitsNone_info_none {texto : String} (hoy : Hoy)
    (h : (extraerCuits texto).head? = none) : extraerInfo texto hoy = none := by
  unfold extraerInfo
  split
  · rfl
  · next cuit hc => rw [h] at hc; exact absurd hc (by simp)

/-- Extraction fails when the point of sale or the number is falsy. -/
theorem pvFalsy_info_none {texto : String} (hoy : Hoy)
    (h : (pyTruthyOpt (extraerPvNro texto).1 && pyTruthyOpt (extraerPvNro texto).2) = false) :
    extraerInfo texto hoy = none := by
  unfold extraerInfo
  split
  · rfl
  · split
    · rfl
    · rcases hpv : extraerPvNro texto with ⟨opv, onro⟩
      rw [hpv] at h
      dsimp only at h ⊢
      rw [h]
      simp

/-- A nonempty extraction result is complete: every identity field of the
record is a nonempty string. -/
theorem extraerInfo_complete {texto : String} {hoy : Hoy} {r : Info}
    (h : extraerInfo texto hoy = some r) :
    r.cuit_pre ≠ "" ∧ r.codigo_cbte ≠ "" ∧ r.pv ≠ "" ∧ r.nro ≠ "" ∧ r.fecha_cbte ≠ "" := by
  rcases extraerInfo_some h with ⟨h1, h2, h3, h4, h5, _⟩
  refine ⟨?_, ?_, h3, h4, ?_⟩
  · have hmem := List.mem_of_mem_head? h1
    have hlen := ((extraerCuits_inv texto).2 _ hmem).1
    intro hc
    rw [hc] at hlen
    simp at hlen
  · rcases codigoCbteDe_vals h2 with hv | hv | hv | hv <;> rw [hv] <;> decide
  · rw [h5]
    exact extraerFecha_ne texto hoy

theorem string_data_nil {s : String} (h : s.data = []) : s = "" := by
  cases s
  subst h
  rfl

/-! ## Concrete example inputs used by the witnesses and counterexamples -/

/-- A document text whose full extraction succeeds with the letter taken
from the cascade itself. -/
def tDocumento : String :=
  "CUIT: 30-12345678-9\nFACTURA C\nPunto de Venta: 00002 Comp. Nro: 00000924"

/-- The record extracted from tDocumento on 1/2/2025. -/
def rDocumento : Info :=
  { cuit_pre := "30123456789", codigo_cbte := "05", pv := "2", nro := "924",
    fecha_cbte := "01/02/2025", tipo_emision := "E", nro_cae := "",
    importe := "0", periodo := "022025", actividad := "090",
    cantidad := "000004", dep := "N" }

/-- A page text the rename tool extracts a full identity from. -/
def tPagina : String := "30-12345678-9\nFACTURA\nC\nNro 0004-00001234"

/-- A document where the letter cascade fails but the any-character
inference of extraer_info_pdf still produces FACTURA C. -/
def tInferencia : String :=
  "CUIT: 30-12345678-9\nFACTURA\nPunto de Venta: 00002 Comp. Nro: 00000924"

/-- A second document of the same kind, for the amended-claim theorem. -/
def tInferencia2 : String :=
  "CUIT: 20-11111111-2\nFACTURA\nPunto de Venta: 00003 Comp. Nro: 00000055"

/-- A text with a labelled emission date followed by four more dates. -/
def tFechas : String :=
  "Fecha de Emisión: 01/01/2020 02/02/2020 03/03/2020 04/04/2020 05/05/2020"

/-- A text with four bare dates and no label. -/
def tFechas4 : String := "01/01/2020 02/02/2020 03/03/2020 04/04/2020"

/-! ## The claims -/

/-- C1: issuer_tax_id extraction collects all distinct 11-digit
identifiers by running the four patterns in fixed priority order, strips
the dash separators so every collected id is exactly 11 digits, and the
first collected id is the issuer; a text containing the labelled form
CUIT: 30-12345678-9 yields issuer 30123456789, and a text whose only
tax-id-like substring is the bare 30123456789 also yields it. -/
theorem C1_cuit_extraction :
    (∀ texto : String, (extraerCuits texto).Nodup ∧
      ∀ x ∈ extraerCuits texto, x.length = 11 ∧ x.data.all Char.isDigit = true) ∧
    (∀ (texto : String) (hoy : Hoy) (r : Info), extraerInfo texto hoy = some r →
      (extraerCuits texto).head? = some r.cuit_pre) ∧
    extraerCuits "Factura CUIT: 30-12345678-9 total" = ["30123456789"] ∧
    extraerCuits "Some text 30123456789 end" = ["30123456789"] := by
  refine ⟨fun texto => extraerCuits_inv texto,
    fun texto hoy r h => (extraerInfo_some h).1, by decide, by decide⟩

theorem C1_cuit_extraction_witness :
    ("30123456789" : String).length = 11 ∧
    ("30123456789" : String).data.all Char.isDigit = true :=
  (C1_cuit_extraction.1 "Some text 30123456789 end").2 "30123456789" (by decide)

/-- C2: extraction is all-or-nothing: when the issuer id, comprobante
code, or sales point and number cannot be determined, the whole document
extraction returns the empty result, and a non-empty result carries
nonempty values for all five required identity fields. -/
theorem C2_all_or_nothing :
    (∀ (texto : String) (hoy : Hoy) (r : Info), extraerInfo texto hoy = some r →
      r.cuit_pre ≠ "" ∧ r.codigo_cbte ≠ "" ∧ r.pv ≠ "" ∧ r.nro ≠ "" ∧ r.fecha_cbte ≠ "") ∧
    (∀ (texto : String) (hoy : Hoy), (extraerCuits texto).head? = none →
      extraerInfo texto hoy = none) ∧
    (∀ (texto : String) (hoy : Hoy), codigoCbteDe texto = none →
      extraerInfo texto hoy = none) ∧
    (∀ (texto : String) (hoy : Hoy),
      (pyTruthyOpt (extraerPvNro texto).1 && pyTruthyOpt (extraerPvNro texto).2) = false →
      extraerInfo texto hoy = none) :=
  ⟨fun _ _ _ h => extraerInfo_complete h,
   fun _ hoy h => cuitsNone_info_none hoy h,
   fun _ hoy h => codigoNone_info_none hoy h,
   fun _ hoy h => pvFalsy_info_none hoy h⟩

theorem C2_all_or_nothing_witness :
    rDocumento.cuit_pre ≠ "" ∧ rDocumento.codigo_cbte ≠ "" ∧
    rDocumento.pv ≠ "" ∧ rDocumento.nro ≠ "" ∧ rDocumento.fecha_cbte ≠ "" :=
  C2_all_or_nothing.1 tDocumento ⟨1, 2, 2025⟩ rDocumento (by decide)

/-- C3: Mode B reconciliation: equal identities from both pages are
accepted without error; unequal ones fail with the inconsistency error
and neither is used; a single present identity is accepted; and two
absent identities fail with the no-identifying-data error. -/
theorem C3_reconciler_mode_b :
    ∀ t1 t2 : String,
      (∀ d, extraerDatosFlexible t1 = some d → extraerDatosFlexible t2 = some d →
        extraerDesdeDosPaginas t1 t2 = (some d, none)) ∧
      (∀ d1 d2, extraerDatosFlexible t1 = some d1 → extraerDatosFlexible t2 = some d2 →
        d1 ≠ d2 → extraerDesdeDosPaginas t1 t2 = (none, some errInconsistencia)) ∧
      (∀ d1, extraerDatosFlexible t1 = some d1 → extraerDatosFlexible t2 = none →
        extraerDesdeDosPaginas t1 t2 = (some d1, none)) ∧
      (∀ d2, extraerDatosFlexible t1 = none → extraerDatosFlexible t2 = some d2 →
        extraerDesdeDosPaginas t1 t2 = (some d2, none)) ∧
      (extraerDatosFlexible t1 = none → extraerDatosFlexible t2 = none →
        extraerDesdeDosPaginas t1 t2 = (none, some errSinDatos)) := by
  intro t1 t2
  refine ⟨?_, ?_, ?_, ?_, ?_⟩
  · intro d h1 h2
    simp [extraerDesdeDosPaginas, h1, h2]
  · intro d1 d2 h1 h2 hne
    simp [extraerDesdeDosPaginas, h1, h2, hne]
  · intro d1 h1 h2
    simp [extraerDesdeDosPaginas, h1, h2]
  · intro d2 h1 h2
    simp [extraerDesdeDosPaginas, h1, h2]
  · intro h1 h2
    simp [extraerDesdeDosPaginas, h1, h2]

theorem C3_reconciler_mode_b_witness :
    extraerDesdeDosPaginas tPagina tPagina = (some "30123456789_5_4_1234.pdf", none) :=
  (C3_reconciler_mode_b tPagina tPagina).1 "30123456789_5_4_1234.pdf" (by decide) (by decide)

/-- C4: the submission line is the pipe join of exactly 19 fields in the
fixed order, the certificate code is exactly 38 characters, the amount
is zero-padded to 14 digits and duplicated in the next field, and amount
150075 appears as 00000000150075 twice. -/
theorem C4_record_builder :
    ∀ (rnos : String) (fila : FilaExcel) (info : Info),
      construirLinea rnos fila info = String.intercalate "|" (camposLinea rnos fila info) ∧
      (camposLinea rnos fila info).length = 19 ∧
      (certAjustado fila.codigo_certificado).length = 38 ∧
      (camposLinea rnos fila info).get? 0 = some "DS" ∧
      (camposLinea rnos fila info).get? 1 = some rnos ∧
      (camposLinea rnos fila info).get? 2 = some fila.cuil ∧
      (camposLinea rnos fila info).get? 3 = some (certAjustado fila.codigo_certificado) ∧
      (camposLinea rnos fila info).get? 4 = some fila.vencimiento_certificado ∧
      (camposLinea rnos fila info).get? 5 = some info.periodo ∧
      (camposLinea rnos fila info).get? 6 = some info.cuit_pre ∧
      (camposLinea rnos fila info).get? 7 = some info.codigo_cbte ∧
      (camposLinea rnos fila info).get? 8 = some info.tipo_emision ∧
      (camposLinea rnos fila info).get? 9 = some info.fecha_cbte ∧
      (camposLinea rnos fila info).get? 10 = some info.nro_cae ∧
      (camposLinea rnos fila info).get? 11 = some (zfill 5 info.pv) ∧
      (camposLinea rnos fila info).get? 12 = some (zfill 8 info.nro) ∧
      (camposLinea rnos fila info).get? 13 = some (zfill 14 info.importe) ∧
      (camposLinea rnos fila info).get? 14 = (camposLinea rnos fila info).get? 13 ∧
      (camposLinea rnos fila info).get? 15 = some info.actividad ∧
      (camposLinea rnos fila info).get? 16 = some info.cantidad ∧
      (camposLinea rnos fila info).get? 17 = some fila.provincia ∧
      (camposLinea rnos fila info).get? 18 = some info.dep ∧
      (info.importe = "150075" →
        (camposLinea rnos fila info).get? 13 = some "00000000150075" ∧
        (camposLinea rnos fila info).get? 14 = some "00000000150075") := by
  intro rnos fila info
  have hcert : (certAjustado fila.codigo_certificado).length = 38 := by
    unfold certAjustado
    split
    · next hgt =>
      show (fila.codigo_certificado.data.take 38).length = 38
      rw [List.length_take]
      have : fila.codigo_certificado.data.length =
        fila.codigo_certificado.length := rfl
      omega
    · next hle =>
      show (fila.codigo_certificado.data ++
        List.replicate (38 - fila.codigo_certificado.length) '0').length = 38
      rw [List.length_append, List.length_replicate]
      have : fila.codigo_certificado.data.length =
        fila.codigo_certificado.length := rfl
      omega
  refine ⟨rfl, rfl, hcert, rfl, rfl, rfl, rfl, rfl, rfl, rfl, rfl, rfl, rfl,
    rfl, rfl, rfl, rfl, rfl, rfl, rfl, rfl, rfl, ?_⟩
  intro h
  rw [show (camposLinea rnos fila info).get? 13 = some (zfill 14 info.importe) from rfl,
    show (camposLinea rnos fila info).get? 14 = some (zfill 14 info.importe) from rfl, h]
  have : zfill 14 "150075" = "00000000150075" := by decide
  rw [this]
  exact ⟨rfl, rfl⟩

theorem C4_record_builder_witness :
    (camposLinea "112299" ⟨"27111111115", "CERT01", "30/03/2026", "02"⟩
      { rDocumento with importe := "150075" }).get? 13 = some "00000000150075" ∧
    (camposLinea "112299" ⟨"27111111115", "CERT01", "30/03/2026", "02"⟩
      { rDocumento with importe := "150075" }).get? 14 = some "00000000150075" :=
  (C4_record_builder "112299" ⟨"27111111115", "CERT01", "30/03/2026", "02"⟩
    { rDocumento with importe := "150075" }).2.2.2.2.2.2.2.2.2.2.2.2.2.2.2.2.2.2.2.2.2.2
    (by decide)

/-- C9: for every digit string s and width w with len s ≤ w, padding the
leading-zero-stripped form of s to width w equals padding s itself. -/
theorem C9_pad_strip :
    ∀ (s : String) (w : Nat), s.data.all Char.isDigit = true → s.length ≤ w →
      zfill w (limpiarNumero s) = zfill w s := by
  intro s w hdig hw
  by_cases hne : s.data = []
  · have hs : s = "" := string_data_nil hne
    subst hs
    rfl
  · have hpy : pyIsDigit s = true := by
      simp [pyIsDigit, List.isEmpty_iff, hne]
      rw [← List.all_eq_true]
      exact hdig
    unfold limpiarNumero
    rw [if_pos hpy]
    unfold zfill natToStr
    rw [show (⟨natDigits (digitsVal s.data)⟩ : String).data = natDigits (digitsVal s.data)
      from rfl]
    rw [zfillL_natDigits s.data hne (fun c hc => (List.all_eq_true.mp hdig) c hc) w hw]

theorem C9_pad_strip_witness :
    zfill 5 (limpiarNumero "007") = zfill 5 "007" :=
  C9_pad_strip "007" 5 (by decide) (by decide)

/-- C10: the issue-date and period extractors are total and never empty,
every successful extraction has nonempty fecha_cbte and periodo, and the
diagnostic report lists fecha_cbte as missing only for the empty result,
never as the sole missing field of a successful extraction. -/
theorem C10_fecha_periodo_total :
    (∀ (texto : String) (hoy : Hoy),
      extraerFecha texto hoy ≠ "" ∧ extraerPeriodo texto hoy ≠ "") ∧
    (∀ (texto : String) (hoy : Hoy) (r : Info), extraerInfo texto hoy = some r →
      r.fecha_cbte ≠ "" ∧ r.periodo ≠ "") ∧
    (∀ (texto : String) (hoy : Hoy),
      "fecha_cbte" ∈ faltantes (extraerInfo texto hoy) → extraerInfo texto hoy = none) ∧
    (∀ (texto : String) (hoy : Hoy), faltantes (extraerInfo texto hoy) ≠ ["fecha_cbte"]) := by
  have key : ∀ (texto : String) (hoy : Hoy) (r : Info), extraerInfo texto hoy = some r →
      r.fecha_cbte ≠ "" ∧ r.periodo ≠ "" := by
    intro texto hoy r h
    rcases extraerInfo_some h with ⟨_, _, _, _, h5, h6⟩
    rw [h5, h6]
    exact ⟨extraerFecha_ne texto hoy, extraerPeriodo_ne texto hoy⟩
  have key2 : ∀ (texto : String) (hoy : Hoy) (r : Info), extraerInfo texto hoy = some r →
      "fecha_cbte" ∉ faltantes (extraerInfo texto hoy) := by
    intro texto hoy r h hmem
    rw [h] at hmem
    simp only [faltantes] at hmem
    rcases List.mem_filter.mp hmem with ⟨_, hval⟩
    have : r.fecha_cbte = "" := by
      apply string_data_nil
      simpa [valorCampo] using hval
    exact (key texto hoy r h).1 this
  refine ⟨fun texto hoy => ⟨extraerFecha_ne texto hoy, extraerPeriodo_ne texto hoy⟩,
    key, ?_, ?_⟩
  · intro texto hoy hmem
    cases h : extraerInfo texto hoy with
    | none => rfl
    | some r => exact absurd hmem (key2 texto hoy r h)
  · intro texto hoy hc
    cases h : extraerInfo texto hoy with
    | none =>
      rw [h] at hc
      exact absurd hc (by decide)
    | some r =>
      apply key2 texto hoy r h
      rw [hc]
      simp

theorem C10_fecha_periodo_total_witness :
    extraerFecha "" ⟨5, 6, 2024⟩ ≠ "" ∧ extraerPeriodo "" ⟨5, 6, 2024⟩ ≠ "" :=
  C10_fecha_periodo_total.1 "" ⟨5, 6, 2024⟩

/-- C5 counterexample: a text carrying a labelled emission date and five
bare dates returns the labelled date, not the 4th bare occurrence, so
extraction does not return the 4th occurrence for every text with 4 or
more dd/mm/yyyy dates. -/
theorem C5_fecha_counterexample :
    4 ≤ (reFindallWhole patFechaSlash tFechas.data).length ∧
    (reFindallWhole patFechaSlash tFechas.data).get? 3 = some "04/04/2020".data ∧
    extraerFecha tFechas ⟨12, 10, 2026⟩ = "01/01/2020" ∧
    ("01/01/2020" : String) ≠ "04/04/2020" :=
  ⟨by decide, by decide, by decide, by decide⟩

/-- C5 amended: issue-date extraction follows the fixed cascade — the
date labelled Fecha de Emisión if present; otherwise, with at least four
bare dd/mm/yyyy dates, the 4th occurrence verbatim; otherwise the first
bare date; otherwise the first dd-mm-yyyy date with dashes converted to
slashes; otherwise the current date — and in particular any text with 4
or more dd/mm/yyyy dates and no labelled emission date yields the 4th
occurrence verbatim. -/
theorem C5_fecha_cascade :
    (∀ (texto : String) (hoy : Hoy) (m : Nat × Nat × Caps),
      reSearch patFechaLabel texto.data = some m →
      extraerFecha texto hoy = capStr texto.data m.2.2 1) ∧
    (∀ (texto : String) (hoy : Hoy) (d : List Char),
      reSearch patFechaLabel texto.data = none →
      (reFindallWhole patFechaSlash texto.data).get? 3 = some d →
      extraerFecha texto hoy = ⟨d⟩) ∧
    (∀ (texto : String) (hoy : Hoy),
      reSearch patFechaLabel texto.data = none →
      (reFindallWhole patFechaSlash texto.data).length < 4 →
      reFindallWhole patFechaSlash texto.data ≠ [] →
      extraerFecha texto hoy = ⟨((reFindallWhole patFechaSlash texto.data).head?).getD []⟩) ∧
    (∀ (texto : String) (hoy : Hoy) (a : List Char),
      reSearch patFechaLabel texto.data = none →
      reFindallWhole patFechaSlash texto.data = [] →
      (reFindallWhole patFechaDash texto.data).head? = some a →
      extraerFecha texto hoy = ⟨a.map (fun c => if c = '-' then '/' else c)⟩) ∧
    (∀ (texto : String) (hoy : Hoy),
      reSearch patFechaLabel texto.data = none →
      reFindallWhole patFechaSlash texto.data = [] →
      reFindallWhole patFechaDash texto.data = [] →
      extraerFecha texto hoy = fmtFechaHoy hoy) := by
  refine ⟨?_, ?_, ?_, ?_, ?_⟩
  · intro texto hoy m h
    simp only [extraerFecha, h]
  · intro texto hoy d h1 h2
    have h4 : 3 < (reFindallWhole patFechaSlash texto.data).length := get?_some_lt h2
    simp only [extraerFecha, h1]
    rw [if_pos (by omega), h2]
    rfl
  · intro texto hoy h1 h2 h3
    simp only [extraerFecha, h1]
    rw [if_neg (by omega), if_pos]
    simp [List.isEmpty_iff, h3]
  · intro texto hoy a h1 h2 h3
    simp only [extraerFecha, h1, h2, h3]
    simp
  · intro texto hoy h1 h2 h3
    simp only [extraerFecha, h1, h2, h3]
    simp

theorem C5_fecha_cascade_witness :
    extraerFecha tFechas4 ⟨12, 10, 2026⟩ = "04/04/2020" :=
  C5_fecha_cascade.2.1 tFechas4 ⟨12, 10, 2026⟩ "04/04/2020".data (by decide) (by decide)

/-- The six possible outcomes of map_actividad, in rule order. -/
theorem mapActividad_cases (texto : String) :
    mapActividad texto =
      ("096", if hasAnyTerm depTerms (pyLowerStr texto).data then "S" else "N") ∨
    mapActividad texto = ("091", "N") ∨
    mapActividad texto = ("085", "N") ∨
    mapActividad texto = ("089", "N") ∨
    mapActividad texto = ("090", "N") ∨
    mapActividad texto =
      ("090", if hasAnyTerm depTerms (pyLowerStr texto).data then "S" else "N") := by
  simp only [mapActividad]
  split
  · exact Or.inl rfl
  · split
    · exact Or.inr (Or.inl rfl)
    · split
      · exact Or.inr (Or.inr (Or.inl rfl))
      · split
        · exact Or.inr (Or.inr (Or.inr (Or.inl rfl)))
        · split
          · exact Or.inr (Or.inr (Or.inr (Or.inr (Or.inl rfl))))
          · exact Or.inr (Or.inr (Or.inr (Or.inr (Or.inr rfl))))

/-- C6: activity classification scans the lowered text with the first
matching rule winning in the fixed order, only the transport rule and
the default consult the dependency terms; a text containing transporte
and discapacidad gives (096, S) and the text sesiones gives (090, N). -/
theorem C6_actividad :
    (∀ texto : String,
      containsSub "transporte".data (pyLowerStr texto).data = true →
      containsSub "discapacidad".data (pyLowerStr texto).data = true →
      mapActividad texto = ("096", "S")) ∧
    mapActividad "sesiones" = ("090", "N") ∧
    (∀ texto : String, (mapActividad texto).2 = "S" →
      hasAnyTerm depTerms (pyLowerStr texto).data = true ∧
      ((mapActividad texto).1 = "096" ∨ (mapActividad texto).1 = "090")) ∧
    (∀ texto : String, hasAnyTerm depTerms (pyLowerStr texto).data = false →
      (mapActividad texto).2 = "N") ∧
    (∀ texto : String, (mapActividad texto).1 = "096" ∨ (mapActividad texto).1 = "091" ∨
      (mapActividad texto).1 = "085" ∨ (mapActividad texto).1 = "089" ∨
      (mapActividad texto).1 = "090") := by
  refine ⟨?_, by decide, ?_, ?_, ?_⟩
  · intro texto h1 h2
    have hdep : hasAnyTerm depTerms (pyLowerStr texto).data = true := by
      simp [hasAnyTerm, depTerms]
      exact Or.inr (Or.inl h2)
    simp only [mapActividad]
    rw [if_pos (by simp [h1]), if_pos hdep]
  · intro texto h
    rcases mapActividad_cases texto with hm | hm | hm | hm | hm | hm <;> rw [hm] at h ⊢
    · constructor
      · by_contra hdep
        rw [Bool.not_eq_true] at hdep
        rw [hdep] at h
        exact absurd h (by decide)
      · exact Or.inl rfl
    · exact absurd h (by decide)
    · exact absurd h (by decide)
    · exact absurd h (by decide)
    · exact absurd h (by decide)
    · constructor
      · by_contra hdep
        rw [Bool.not_eq_true] at hdep
        rw [hdep] at h
        exact absurd h (by decide)
      · exact Or.inr rfl
  · intro texto hdep
    rcases mapActividad_cases texto with hm | hm | hm | hm | hm | hm <;> rw [hm] <;>
      simp [hdep]
  · intro texto
    rcases mapActividad_cases texto with hm | hm | hm | hm | hm | hm <;> rw [hm] <;> simp

theorem C6_actividad_witness :
    mapActividad "traslado y transporte de persona con discapacidad" = ("096", "S") :=
  C6_actividad.1 "traslado y transporte de persona con discapacidad" (by decide) (by decide)

/-- C7: the comprobante-code lookup is a pure function with exactly the
four defined inputs (FACTURA,B) 03, (RECIBO,B) 04, (FACTURA,C) 05 and
(RECIBO,C) 06; every other pair, including pairs with a missing
component, yields absent. -/
theorem C7_doc_code_lookup :
    CODIGO_CBTE "FACTURA" "B" = some "03" ∧
    CODIGO_CBTE "RECIBO" "B" = some "04" ∧
    CODIGO_CBTE "FACTURA" "C" = some "05" ∧
    CODIGO_CBTE "RECIBO" "C" = some "06" ∧
    (∀ t l : String,
      ¬ ((t = "FACTURA" ∧ l = "B") ∨ (t = "RECIBO" ∧ l = "B") ∨
         (t = "FACTURA" ∧ l = "C") ∨ (t = "RECIBO" ∧ l = "C")) →
      CODIGO_CBTE t l = none) ∧
    (∀ l, tipoYLetraACodigo none l = none) ∧
    (∀ t, tipoYLetraACodigo t none = none) ∧
    tipoYLetraACodigo (some "FACTURA") (some "B") = some 3 ∧
    tipoYLetraACodigo (some "RECIBO") (some "B") = some 4 ∧
    tipoYLetraACodigo (some "FACTURA") (some "C") = some 5 ∧
    tipoYLetraACodigo (some "RECIBO") (some "C") = some 6 ∧
    (∀ t l : String,
      ¬ ((t = "FACTURA" ∧ l = "B") ∨ (t = "RECIBO" ∧ l = "B") ∨
         (t = "FACTURA" ∧ l = "C") ∨ (t = "RECIBO" ∧ l = "C")) →
      tipoYLetraACodigo (some t) (some l) = none) := by
  refine ⟨rfl, rfl, rfl, rfl, ?_, ?_, ?_, rfl, rfl, rfl, rfl, ?_⟩
  · intro t l h
    unfold CODIGO_CBTE
    split
    · next hc => exact absurd (Or.inl hc) h
    · split
      · next hc => exact absurd (Or.inr (Or.inl hc)) h
      · split
        · next hc => exact absurd (Or.inr (Or.inr (Or.inl hc))) h
        · split
          · next hc => exact absurd (Or.inr (Or.inr (Or.inr hc))) h
          · rfl
  · intro l; rfl
  · intro t; cases t <;> rfl
  · intro t l h
    simp only [tipoYLetraACodigo]
    split
    · next hc => exact absurd (Or.inl ⟨hc.2, hc.1⟩) h
    · split
      · next hc => exact absurd (Or.inr (Or.inl ⟨hc.2, hc.1⟩)) h
      · split
        · next hc => exact absurd (Or.inr (Or.inr (Or.inl ⟨hc.2, hc.1⟩))) h
        · split
          · next hc => exact absurd (Or.inr (Or.inr (Or.inr ⟨hc.2, hc.1⟩))) h
          · rfl

theorem C7_doc_code_lookup_witness :
    CODIGO_CBTE "NOTA" "A" = none ∧ tipoYLetraACodigo (some "NOTA") (some "A") = none :=
  ⟨C7_doc_code_lookup.2.2.2.2.1 "NOTA" "A" (by decide),
   C7_doc_code_lookup.2.2.2.2.2.2.2.2.2.2.2 "NOTA" "A" (by decide)⟩

/-- C8 counterexample: the lone-letter pattern never assigns the letter
(its first group spans the start-or-newline alternative); an
unrecognized COD code stops the cascade and the substring fallback tries
C before B; and when the cascade leaves the letter undetermined,
extraer_info_pdf still infers FACTURA C from any bare C character, so
doc_code is not absent and extraction does not fail. -/
theorem C8_letter_counterexample :
    extraerTipoLetra "RECIBO\nC\n" = (some "RECIBO", none) ∧
    extraerTipoLetra "RECIBO COD. 123 B015" = (some "RECIBO", some "C") ∧
    (extraerTipoLetra tInferencia).2 = none ∧
    (extraerInfo tInferencia ⟨1, 2, 2025⟩).map (fun r => r.codigo_cbte) = some "05" :=
  ⟨by decide, by decide, by decide, by decide⟩

/-- C8 amended: doc_letter is determined by the cascade [B/C] FACTURA,
FACTURA [B/C], [B/C] COD, the COD-code lookup (011, 006 give C; 008, 009
give B; an unrecognized code stops the cascade), then the compact
[B/C]NNN form — the lone-B/C-on-its-own-line pattern matches but never
assigns — and, when doc_type is known, the literal substring fallback
tried for C before B; when the cascade leaves the letter undetermined,
extraer_info_pdf additionally infers FACTURA with letter C or B from the
bare characters of the text whenever the uppercased text contains
FACTURA, and extraction fails only when the comprobante code is still
undetermined after that inference. -/
theorem C8_letter_cascade :
    (∀ (texto : String) (hoy : Hoy), codigoCbteDe texto = none →
      extraerInfo texto hoy = none) ∧
    (∀ (texto : String) (hoy : Hoy) (r : Info), extraerInfo texto hoy = some r →
      codigoCbteDe texto = some r.codigo_cbte) ∧
    extraerTipoLetra "RECIBO\nB\n" = (some "RECIBO", none) ∧
    extraerTipoLetra "RECIBO\nCOD. 777\nB123" = (some "RECIBO", none) ∧
    extraerTipoLetra "RECIBO B y RECIBO C" = (some "RECIBO", some "C") ∧
    (extraerTipoLetra tInferencia2).2 = none ∧
    (extraerInfo tInferencia2 ⟨1, 2, 2025⟩).map (fun r => r.codigo_cbte) = some "05" :=
  ⟨fun _ hoy h => codigoNone_info_none hoy h,
   fun _ _ _ h => (extraerInfo_some h).2.1,
   by decide, by decide, by decide, by decide, by decide⟩

theorem C8_letter_cascade_witness :
    extraerInfo "RECIBO 123" ⟨1, 2, 2025⟩ = none :=
  C8_letter_cascade.1 "RECIBO 123" ⟨1, 2, 2025⟩ (by decide)
end Renombrador
